import Mathlib

/-!
# ITMS — verification of the core data operations

Shallow embedding of the ITMS repository's data model and operations:
ticket / reservation number generation and `save` hooks
(`itms_app/models.py`), the reservation-creation view and the
software-license detail view (`accounts/views.py`), the permission-group
seeding routine (`accounts/permissions.py`,
`accounts/management/commands/setup_permissions.py`), and the prototype
in-memory booking API (`main.py`).  Machine state (database tables, the
mock dictionaries) is modelled with explicit lists; datetimes are `Int`
timestamps; status enumerations are the literal strings the source uses.
-/

namespace ITMS

/-! ### Ticket / reservation number generation (`itms_app/models.py`)

`HelpDeskTicket.save` builds `TK` + timestamp, then while the candidate
collides with an existing `ticket_number` it increments a counter and
appends it zero-padded to width 3 (Python `f"{counter:03d}"`); once the
counter passes 999 it falls back to `TK` + fresh timestamp + a random
4-digit integer and stops checking for collisions.  `Reservation.save`
is identical with the `RSV` base.  The collision test
(`objects.filter(...).exists()`) is modelled by a membership oracle
`taken : String → Bool`. -/

/-- Python `f"{n:03d}"`: decimal representation zero-padded to width 3. -/
def formatCounter (n : Nat) : String :=
  let s := toString n
  if 3 ≤ s.length then s else String.mk (List.replicate (3 - s.length) '0') ++ s

/-- The candidate number tried at counter value `c`: the bare base for
`c = 0`, else base plus padded counter. -/
def numberCandidate (base : String) : Nat → String
  | 0 => base
  | c + 1 => base ++ formatCounter (c + 1)

/-- The collision loop of `HelpDeskTicket.save` / `Reservation.save`.
`fuel` is only a termination bound; the source loop breaks via the
`counter > 999` safety check, returning the random fallback number. -/
def genAux (base fallback : String) (taken : String → Bool) : Nat → Nat → String → String
  | 0, _, num => num
  | fuel + 1, counter, num =>
    if taken num then
      if 999 < counter + 1 then fallback
      else genAux base fallback taken fuel (counter + 1) (base ++ formatCounter (counter + 1))
    else num

/-- Number generation as in the two `save` methods: start from `base`,
append the smallest free 3-digit counter, fall back to `fallback`
(timestamp + random digits) after 999 failed attempts. -/
def generateNumber (base fallback : String) (taken : String → Bool) : String :=
  genAux base fallback taken 1001 0 base

/-- Membership oracle for a concrete table of existing numbers. -/
def numberTaken (existing : List String) : String → Bool :=
  fun s => existing.contains s

/-! ### `HelpDeskTicket` and `Reservation` rows and their `save` hooks -/

structure HelpDeskTicket where
  ticket_number : String
  title : String
  status : String
  resolved_at : Option Int
deriving Repr, DecidableEq

/-- `HelpDeskTicket.save` (`itms_app/models.py` lines 283-299): generate a
ticket number when unset (`ts`, `ts2` are the two `timezone.now()`
timestamp strings, `rand` the random fallback suffix), then stamp
`resolved_at` when the status is `resolved` and it is still unset. -/
def HelpDeskTicket.save (existing : List String) (ts ts2 : String) (rand : Nat) (now : Int)
    (t : HelpDeskTicket) : HelpDeskTicket :=
  let t1 :=
    if t.ticket_number = "" then
      { t with ticket_number :=
          generateNumber ("TK" ++ ts) ("TK" ++ ts2 ++ toString rand) (numberTaken existing) }
    else t
  if t1.status = "resolved" ∧ t1.resolved_at = none then { t1 with resolved_at := some now } else t1

structure Reservation where
  reservation_number : String
  title : String
  description : String
  asset : String
  reservation_type : String
  status : String
  start_datetime : Int
  end_datetime : Int
  number_of_people : Option Int
  purpose : String
  contact_phone : String
  special_requirements : String
  approved_at : Option Int
deriving Repr, DecidableEq

/-- `Reservation.save` (`itms_app/models.py` lines 353-370): same number
generation with the `RSV` base, then stamp `approved_at` when the status
is `approved` and it is still unset. -/
def Reservation.save (existing : List String) (ts ts2 : String) (rand : Nat) (now : Int)
    (r : Reservation) : Reservation :=
  let r1 :=
    if r.reservation_number = "" then
      { r with reservation_number :=
          generateNumber ("RSV" ++ ts) ("RSV" ++ ts2 ++ toString rand) (numberTaken existing) }
    else r
  if r1.status = "approved" ∧ r1.approved_at = none then { r1 with approved_at := some now } else r1

example : generateNumber "TK1" "F" (numberTaken []) = "TK1" := by decide

example : generateNumber "TK1" "F" (numberTaken ["TK1"]) = "TK1001" := by decide

example : generateNumber "TK1" "F" (numberTaken ["TK1", "TK1001"]) = "TK1002" := by decide

/-! ### Reservation store and the creation view (`accounts/views.py`)

`create_reservation_view` validates the POST fields, runs the range
overlap query against `pending`/`approved` reservations of the selected
asset, and only creates the `Reservation` row when no error was
collected.  Datetime parsing (`datetime.strptime` + `make_aware`) and
`int()` are modelled by oracle functions in `Parsers`; the database is a
`ReservationDb`; the check constraint
`end_datetime_after_start_datetime` of `Reservation.Meta` lives in
`insertReservation`, the model of the SQL `INSERT`. -/

structure Asset where
  id : String
  name : String
  status : String
  category : String
deriving Repr, DecidableEq

structure ReservationDb where
  assets : List Asset
  reservations : List Reservation
deriving Repr, DecidableEq

/-- `INSERT INTO reservation`: the database enforces the
`end_datetime_after_start_datetime` check constraint
(`itms_app/models.py` lines 410-417) and rejects the row otherwise. -/
def insertReservation (db : ReservationDb) (r : Reservation) : Except String ReservationDb :=
  if r.start_datetime < r.end_datetime then
    Except.ok { db with reservations := db.reservations ++ [r] }
  else Except.error "CHECK constraint end_datetime_after_start_datetime failed"

/-- `Asset.objects.get(id=asset_id)`, as used by the views. -/
def findAsset (db : ReservationDb) (aid : String) : Option Asset :=
  db.assets.find? (fun a => decide (a.id = aid))

/-- The overlap query of `create_reservation_view` (lines 699-707):
reservations of the same asset with status `pending` or `approved` whose
`[start_datetime, end_datetime)` range intersects `[s, e)`. -/
def reservationConflicts (db : ReservationDb) (a : Asset) (s e : Int) : List Reservation :=
  db.reservations.filter (fun r =>
    decide (r.asset = a.id ∧ (r.status = "pending" ∨ r.status = "approved") ∧
      r.start_datetime < e ∧ s < r.end_datetime))

/-- Oracles for Python parsing primitives: `parseDT` models
`datetime.strptime(x, "%Y-%m-%dT%H:%M")` + `timezone.make_aware` (the
`ValueError` case is `none`), `parseInt` models `int(x)`. -/
structure Parsers where
  parseDT : String → Option Int
  parseInt : String → Option Int

/-- The (stripped) POST fields of the reservation form. -/
structure ReservationRequest where
  title : String
  description : String
  asset : String
  reservation_type : String
  start_datetime : String
  end_datetime : String
  number_of_people : String
  purpose : String
  contact_phone : String
  special_requirements : String
deriving Repr

/-- Result of one POST to `create_reservation_view`: the database after
the request, the `messages.error` texts, and the created row if any. -/
structure ReservationViewResult where
  db : ReservationDb
  errors : List String
  created : Option Reservation
deriving Repr, DecidableEq

/-- The error-collection phase of `create_reservation_view`
(`accounts/views.py` lines 655-712), in source order: required-field and
length checks, datetime parsing, ordering and past checks, then the
conflict query with the missing-asset handler. -/
def reservationErrors (P : Parsers) (now : Int) (db : ReservationDb)
    (req : ReservationRequest) : List String :=
  let e1 :=
    if req.title = "" then ["Title is required."]
    else if req.title.length < 5 then ["Title must be at least 5 characters long."]
    else []
  let e2 := e1 ++ (if req.asset = "" then ["Please select an asset to reserve."] else [])
  let e3 := e2 ++ (if req.reservation_type = "" then ["Please select a reservation type."] else [])
  let e4 := e3 ++ (if req.start_datetime = "" then ["Start date and time is required."] else [])
  let e5 := e4 ++ (if req.end_datetime = "" then ["End date and time is required."] else [])
  let start_dt := if req.start_datetime = "" then none else P.parseDT req.start_datetime
  let e6 := e5 ++
    (if req.start_datetime ≠ "" ∧ start_dt = none then ["Invalid start date/time format."] else [])
  let end_dt := if req.end_datetime = "" then none else P.parseDT req.end_datetime
  let e7 := e6 ++
    (if req.end_datetime ≠ "" ∧ end_dt = none then ["Invalid end date/time format."] else [])
  match start_dt, end_dt with
  | some s, some e =>
    let e8 := e7 ++ (if e ≤ s then ["End time must be after start time."] else [])
    let e9 := e8 ++ (if s < now then ["Start time cannot be in the past."] else [])
    match findAsset db req.asset with
    | some a =>
      e9 ++
        (if reservationConflicts db a s e ≠ [] then
          ["Asset \"" ++ a.name ++ "\" is already reserved during this time period."]
        else [])
    | none => e9 ++ ["Selected asset does not exist."]
  | _, _ => e7

/-- The creation phase of `create_reservation_view` (lines 717-739),
reached only with an empty error list: fetch the asset, build the row
with status `pending`, run `Reservation.save` (number generation) and
the insert; any exception becomes the `Error creating reservation`
message.  `existingNums` feeds the collision oracle of `save`. -/
def reservationCreate (P : Parsers) (ts ts2 : String) (rand : Nat) (now : Int)
    (db : ReservationDb) (req : ReservationRequest) : ReservationViewResult :=
  match findAsset db req.asset with
  | none => ⟨db, ["Error creating reservation: Asset matching query does not exist."], none⟩
  | some a =>
    match (if req.start_datetime = "" then none else P.parseDT req.start_datetime),
        (if req.end_datetime = "" then none else P.parseDT req.end_datetime) with
    | some s, some e =>
      match (if req.number_of_people = "" then some none
          else (P.parseInt req.number_of_people).map some) with
      | none => ⟨db, ["Error creating reservation: invalid literal for int()"], none⟩
      | some np =>
        let r0 : Reservation :=
          { reservation_number := ""
            title := req.title
            description := req.description
            asset := a.id
            reservation_type := req.reservation_type
            status := "pending"
            start_datetime := s
            end_datetime := e
            number_of_people := np
            purpose := req.purpose
            contact_phone := req.contact_phone
            special_requirements := req.special_requirements
            approved_at := none }
        let r := Reservation.save (db.reservations.map Reservation.reservation_number)
          ts ts2 rand now r0
        match insertReservation db r with
        | Except.ok db2 => ⟨db2, [], some r⟩
        | Except.error m => ⟨db, ["Error creating reservation: " ++ m], none⟩
    | _, _ => ⟨db, ["Error creating reservation: missing datetime"], none⟩

/-- `create_reservation_view` on a POST request: collect errors; on any
error render them and change nothing, otherwise create the row. -/
def create_reservation_view (P : Parsers) (ts ts2 : String) (rand : Nat) (now : Int)
    (db : ReservationDb) (req : ReservationRequest) : ReservationViewResult :=
  let errs := reservationErrors P now db req
  if errs ≠ [] then ⟨db, errs, none⟩
  else reservationCreate P ts ts2 rand now db req

/-! ### Software licenses and the license-detail view (`accounts/views.py`)

`software_license_detail_view` handles an `install` POST (create a
`SoftwareInstallation`, then increment `current_installations`) and an
`uninstall` POST (delete the installation, then decrement with a floor
of zero).  `available_installations` is the model property
`max_installations - current_installations` (`itms_app/models.py`
lines 229-231). -/

structure SoftwareLicense where
  id : String
  name : String
  max_installations : Int
  current_installations : Int
deriving Repr, DecidableEq

def SoftwareLicense.available_installations (l : SoftwareLicense) : Int :=
  l.max_installations - l.current_installations

structure SoftwareInstallation where
  id : String
  software_license : String
  asset : String
  notes : String
deriving Repr, DecidableEq

structure LicenseDb where
  assets : List Asset
  licenses : List SoftwareLicense
  installations : List SoftwareInstallation
deriving Repr, DecidableEq

structure LicenseViewResult where
  db : LicenseDb
  errors : List String
deriving Repr, DecidableEq

/-- `license.save()` after mutating `current_installations`: write the
fetched object's field back to its row. -/
def saveLicense (licenses : List SoftwareLicense) (l : SoftwareLicense) :
    List SoftwareLicense :=
  licenses.map (fun x => if x.id = l.id then l else x)

/-- The `install` branch of `software_license_detail_view`
(`accounts/views.py` lines 920-954).  `none` is the
`get_object_or_404` failure on the license id.  `newId` is the primary
key the database hands the created installation. -/
def software_license_install (db : LicenseDb) (license_id asset_id notes newId : String) :
    Option LicenseViewResult :=
  match db.licenses.find? (fun l => decide (l.id = license_id)) with
  | none => none
  | some license => some (
    if asset_id = "" then ⟨db, []⟩
    else
      match db.assets.find? (fun a => decide (a.id = asset_id)) with
      | none => ⟨db, ["Selected asset does not exist"]⟩
      | some a =>
        if db.installations.filter (fun i =>
            decide (i.software_license = license.id ∧ i.asset = a.id)) = [] then
          if (0 : Int) < license.available_installations then
            let inst : SoftwareInstallation := ⟨newId, license.id, a.id, notes⟩
            let license2 :=
              { license with current_installations := license.current_installations + 1 }
            ⟨{ db with
                installations := db.installations ++ [inst],
                licenses := saveLicense db.licenses license2 }, []⟩
          else ⟨db, ["No available installations remaining for this license"]⟩
        else ⟨db, ["Software is already installed on " ++ a.name]⟩)

/-- The `uninstall` branch of `software_license_detail_view`
(lines 958-980): delete the row, then write back
`max(0, current_installations - 1)`. -/
def software_license_uninstall (db : LicenseDb) (license_id installation_id : String) :
    Option LicenseViewResult :=
  match db.licenses.find? (fun l => decide (l.id = license_id)) with
  | none => none
  | some license => some (
    if installation_id = "" then ⟨db, []⟩
    else
      match db.installations.find? (fun i =>
          decide (i.id = installation_id ∧ i.software_license = license.id)) with
      | none => ⟨db, ["Installation not found"]⟩
      | some inst =>
        let license2 :=
          { license with current_installations := max 0 (license.current_installations - 1) }
        ⟨{ db with
            installations := db.installations.eraseP (fun i => decide (i.id = inst.id)),
            licenses := saveLicense db.licenses license2 }, []⟩)

/-! ### The prototype in-memory booking API (`main.py`)

`MOCK_BOOKINGS` is a Python dict keyed by booking id; `create_booking`
(lines 1200-1242) validates the resource and the time range and then
stores under the key `"booking_" + str(len(MOCK_BOOKINGS) + 1)`;
`delete_booking` (lines 1290-1297) removes a key.  Dict insertion
replaces in place when the key exists, else appends. -/

structure MockBooking where
  id : String
  resource_id : String
  user_id : String
  title : String
  start_time : Int
  end_time : Int
  status : String
deriving Repr, DecidableEq

structure MockResource where
  id : String
  status : String
deriving Repr, DecidableEq

structure BookingCreate where
  resource_id : String
  title : String
  start_time : Int
  end_time : Int
deriving Repr, DecidableEq

def dictContains (d : List (String × α)) (k : String) : Bool :=
  d.any (fun kv => decide (kv.1 = k))

def dictGet? (d : List (String × α)) (k : String) : Option α :=
  (d.find? (fun kv => decide (kv.1 = k))).map Prod.snd

def dictSet (d : List (String × α)) (k : String) (v : α) : List (String × α) :=
  if dictContains d k then d.map (fun kv => if kv.1 = k then (k, v) else kv)
  else d ++ [(k, v)]

def dictDel (d : List (String × α)) (k : String) : List (String × α) :=
  d.filter (fun kv => decide (¬ kv.1 = k))

structure MockState where
  resources : List (String × MockResource)
  bookings : List (String × MockBooking)
deriving Repr, DecidableEq

/-- `POST /api/bookings` (`main.py` lines 1200-1242).  Errors are the
`HTTPException`s (status code, detail). -/
def create_booking (st : MockState) (b : BookingCreate) :
    Except (Nat × String) (MockState × MockBooking) :=
  match dictGet? st.resources b.resource_id with
  | none => Except.error (404, "Resource not found")
  | some res =>
    if res.status ≠ "available" then Except.error (400, "Resource not available")
    else if st.bookings.any (fun kv =>
        decide (kv.2.resource_id = b.resource_id ∧
          (kv.2.status = "approved" ∨ kv.2.status = "confirmed") ∧
          ¬ (b.end_time ≤ kv.2.start_time ∨ kv.2.end_time ≤ b.start_time))) then
      Except.error (400, "Time slot already booked")
    else
      let booking_id := "booking_" ++ toString (st.bookings.length + 1)
      let nb : MockBooking :=
        ⟨booking_id, b.resource_id, "temp_user_id", b.title, b.start_time, b.end_time, "pending"⟩
      Except.ok ({ st with bookings := dictSet st.bookings booking_id nb }, nb)

/-- `DELETE /api/bookings/(id)` (`main.py` lines 1290-1297). -/
def delete_booking (st : MockState) (booking_id : String) :
    Except (Nat × String) MockState :=
  if dictContains st.bookings booking_id then
    Except.ok { st with bookings := dictDel st.bookings booking_id }
  else Except.error (404, "Booking not found")

/-! ### Transactions around multi-step writes

A write sequence is a list of state updates; `execSteps` applies them,
aborting at index `failAt` when the database raises there.
`runTransactional` adds the `transaction.atomic()` semantics: a wrapped
operation rolls back to the pre-state on failure, an unwrapped one keeps
whatever prefix of the steps already ran. -/

def execSteps {σ : Type} : List (σ → σ) → Option Nat → σ → σ × Bool
  | [], _, st => (st, true)
  | _ :: _, some 0, st => (st, false)
  | f :: fs, some (n + 1), st => execSteps fs (some n) (f st)
  | f :: fs, none, st => execSteps fs none (f st)

def runTransactional {σ : Type} (atomic : Bool) (steps : List (σ → σ)) (failAt : Option Nat)
    (st : σ) : σ × Bool :=
  let r := execSteps steps failAt st
  if r.2 then r else (if atomic then st else r.1, false)

/-- The signup view's user creation runs inside `with
transaction.atomic():` (`accounts/views.py` lines 144-153). -/
def signupAtomic : Bool := true

/-- `Command.setup_permissions` carries the `@transaction.atomic`
decorator (`setup_permissions.py` line 105). -/
def setupPermissionsAtomic : Bool := true

/-- The install branch of `software_license_detail_view`
(`accounts/views.py` lines 935-945) has no `transaction.atomic()`
wrapper. -/
def softwareInstallAtomic : Bool := false

/-- The single write of the signup block: `User.objects.create_user`. -/
def signupSteps (u : String) : List (List String → List String) :=
  [fun users => users ++ [u]]

/-- The two writes of the install branch:
`SoftwareInstallation.objects.create(...)`, then
`license.current_installations += 1; license.save()`. -/
def installWriteSteps (license : SoftwareLicense) (asset_id notes newId : String) :
    List (LicenseDb → LicenseDb) :=
  [fun db =>
    { db with installations := db.installations ++ [⟨newId, license.id, asset_id, notes⟩] },
   fun db =>
    { db with
      licenses :=
        saveLicense db.licenses
          ({ license with current_installations := license.current_installations + 1 }) }]

/-! ### Permission-group seeding (`accounts/permissions.py`)

`ITMSPermissionManager.create_groups_and_permissions` walks
`PERMISSION_GROUPS`, `get_or_create`s each group by name, clears its
permissions and re-adds the resolution of each permission-code string: a
code containing `*` is split at the first `.` and the first `_` and
matched by `codename__startswith`; a specific `app.codename` code is
looked up under one content type (for `auth` the model derived from the
codename, otherwise the app's FIRST content type), skipping the code
when the content type or the permission is not found.  `auth_group` and
`auth_group_permissions` rows are modelled as ordered lists. -/

structure ContentType where
  id : Nat
  app_label : String
  model : String
deriving Repr, DecidableEq

structure Permission where
  id : Nat
  content_type : Nat
  codename : String
deriving Repr, DecidableEq

/-- Python `s.split(c, 1)` restricted to the found case: split at the
first occurrence of `c`, `none` when `c` does not occur (where the
source's tuple unpacking would raise `ValueError`). -/
def splitOnceList (c : Char) : List Char → Option (List Char × List Char)
  | [] => none
  | x :: xs =>
    if x = c then some ([], xs)
    else (splitOnceList c xs).map (fun p => (x :: p.1, p.2))

def splitOnce (c : Char) (s : String) : Option (String × String) :=
  (splitOnceList c s.toList).map (fun p => (String.mk p.1, String.mk p.2))

/-- Python `c in s` for a single character. -/
def containsChar (s : String) (c : Char) : Bool :=
  s.toList.contains c

/-- Python `s.startswith(p)`. -/
def strStartsWith (s p : String) : Bool :=
  p.toList.isPrefixOf s.toList

/-- `content_type__app_label` of a permission row. -/
def ctAppLabelOf (cts : List ContentType) (ctid : Nat) : Option String :=
  (cts.find? (fun ct => decide (ct.id = ctid))).map ContentType.app_label

/-- The `auth` model-name derivation of the specific-permission branch
(`accounts/permissions.py` lines 269-280). -/
def authModelName (codename : String) : String :=
  if strStartsWith codename "add_user" || strStartsWith codename "change_user" ||
      strStartsWith codename "delete_user" || strStartsWith codename "view_user" then "user"
  else if strStartsWith codename "add_group" || strStartsWith codename "change_group" ||
      strStartsWith codename "delete_group" || strStartsWith codename "view_group" then "group"
  else if strStartsWith codename "add_permission" || strStartsWith codename "change_permission" ||
      strStartsWith codename "delete_permission" || strStartsWith codename "view_permission" then
    "permission"
  else
    match splitOnce '_' codename with
    | some p => p.2
    | none => "user"

/-- Resolution of one permission-code string to the permission ids added
to the group (`accounts/permissions.py` lines 248-306).  Codes whose
lookup fails resolve to `[]` (the source prints a warning and
continues). -/
def resolvePermCode (cts : List ContentType) (perms : List Permission) (code : String) :
    List Nat :=
  if containsChar code '*' then
    match splitOnce '.' code with
    | none => []
    | some al =>
      match splitOnce '_' al.2 with
      | none => []
      | some am =>
        (perms.filter (fun p =>
          decide (ctAppLabelOf cts p.content_type = some al.1 ∧
            strStartsWith p.codename am.1 = true))).map Permission.id
  else
    match splitOnce '.' code with
    | some ac =>
      let content_type :=
        if ac.1 = "auth" then
          cts.find? (fun ct => decide (ct.app_label = ac.1 ∧ ct.model = authModelName ac.2))
        else cts.find? (fun ct => decide (ct.app_label = ac.1))
      match content_type with
      | none => []
      | some ct =>
        match perms.find? (fun p => decide (p.content_type = ct.id ∧ p.codename = ac.2)) with
        | none => []
        | some p => [p.id]
    | none =>
      match perms.find? (fun p => decide (p.codename = code)) with
      | none => []
      | some p => [p.id]

/-- State of the `auth_group` and `auth_group_permissions` tables:
group rows (names, unique in a healthy database) and group-permission
rows in insertion order. -/
structure AuthState where
  groups : List String
  group_permissions : List (String × Nat)
deriving Repr, DecidableEq

/-- `Group.objects.get_or_create(name=...)`: append a row only when the
name is absent. -/
def addGroupRow (groups : List String) (name : String) : List String :=
  if name ∈ groups then groups else groups ++ [name]

/-- `group.permissions.clear()`. -/
def clearGroupPerms (rows : List (String × Nat)) (g : String) : List (String × Nat) :=
  rows.filter (fun row => decide (¬ row.1 = g))

/-- `group.permissions.add(perm)`: the m2m manager inserts only missing
rows. -/
def addPermRow (rows : List (String × Nat)) (g : String) (pid : Nat) : List (String × Nat) :=
  if (g, pid) ∈ rows then rows else rows ++ [(g, pid)]

def addPermRows (rows : List (String × Nat)) (g : String) (pids : List Nat) :
    List (String × Nat) :=
  pids.foldl (fun r pid => addPermRow r g pid) rows

/-- Processing of one `PERMISSION_GROUPS` entry: get-or-create the
group, clear its permissions, re-add the resolution of every listed
code in order. -/
def permGroupStep (cts : List ContentType) (perms : List Permission) (st : AuthState)
    (entry : String × List String) : AuthState :=
  { groups := addGroupRow st.groups entry.1,
    group_permissions :=
      addPermRows (clearGroupPerms st.group_permissions entry.1) entry.1
        ((entry.2.map (resolvePermCode cts perms)).flatten) }

/-- `ITMSPermissionManager.create_groups_and_permissions`
(`accounts/permissions.py` lines 223-310). -/
def create_groups_and_permissions (config : List (String × List String))
    (cts : List ContentType) (perms : List Permission) (st : AuthState) : AuthState :=
  config.foldl (permGroupStep cts perms) st

/-- The `PERMISSION_GROUPS` dictionary of `ITMSPermissionManager`
(`accounts/permissions.py` lines 35-224), in source order; the
description and color entries are irrelevant to the seeding logic. -/
def PERMISSION_GROUPS : List (String × List String) :=
  [("IT_Administrators",
    ["auth.add_user", "auth.change_user", "auth.delete_user", "auth.view_user",
     "auth.add_group", "auth.change_group", "auth.delete_group", "auth.view_group",
     "itms_app.add_*", "itms_app.change_*", "itms_app.delete_*", "itms_app.view_*",
     "accounts.add_*", "accounts.change_*", "accounts.delete_*", "accounts.view_*",
     "itms_app.can_approve", "itms_app.can_reject", "itms_app.can_view_all",
     "itms_app.can_export", "itms_app.can_import", "itms_app.can_generate_reports",
     "itms_app.can_manage_settings"]),
   ("Asset_Managers",
    ["itms_app.add_asset", "itms_app.change_asset", "itms_app.view_asset",
     "itms_app.add_category", "itms_app.change_category", "itms_app.view_category",
     "itms_app.add_location", "itms_app.change_location", "itms_app.view_location",
     "itms_app.add_vendor", "itms_app.change_vendor", "itms_app.view_vendor",
     "itms_app.add_softwarelicense", "itms_app.change_softwarelicense",
     "itms_app.view_softwarelicense", "itms_app.add_softwareinstallation",
     "itms_app.change_softwareinstallation", "itms_app.view_softwareinstallation",
     "itms_app.add_maintenancerecord", "itms_app.change_maintenancerecord",
     "itms_app.view_maintenancerecord",
     "itms_app.can_export", "itms_app.can_generate_reports"]),
   ("Security_Officers",
    ["itms_app.add_securityincident", "itms_app.change_securityincident",
     "itms_app.view_securityincident", "itms_app.add_vulnerabilityassessment",
     "itms_app.change_vulnerabilityassessment", "itms_app.view_vulnerabilityassessment",
     "itms_app.add_accesscontrolmatrix", "itms_app.change_accesscontrolmatrix",
     "itms_app.view_accesscontrolmatrix", "itms_app.add_securityauditlog",
     "itms_app.change_securityauditlog", "itms_app.view_securityauditlog",
     "itms_app.add_complianceframework", "itms_app.change_complianceframework",
     "itms_app.view_complianceframework", "itms_app.add_compliancerequirement",
     "itms_app.change_compliancerequirement", "itms_app.view_compliancerequirement",
     "itms_app.add_auditrecord", "itms_app.change_auditrecord", "itms_app.view_auditrecord",
     "itms_app.view_asset", "itms_app.view_networkdevice",
     "itms_app.can_view_all", "itms_app.can_export", "itms_app.can_generate_reports"]),
   ("Network_Engineers",
    ["itms_app.add_networkdevice", "itms_app.change_networkdevice",
     "itms_app.view_networkdevice", "itms_app.add_ipaddressallocation",
     "itms_app.change_ipaddressallocation", "itms_app.view_ipaddressallocation",
     "itms_app.add_networkport", "itms_app.change_networkport", "itms_app.view_networkport",
     "itms_app.add_networkmonitoring", "itms_app.change_networkmonitoring",
     "itms_app.view_networkmonitoring", "itms_app.add_systemmonitoring",
     "itms_app.change_systemmonitoring", "itms_app.view_systemmonitoring",
     "itms_app.add_alert", "itms_app.change_alert", "itms_app.view_alert",
     "itms_app.add_alertrule", "itms_app.change_alertrule", "itms_app.view_alertrule",
     "itms_app.view_asset", "itms_app.view_location",
     "itms_app.can_export", "itms_app.can_generate_reports"]),
   ("Helpdesk_Staff",
    ["itms_app.add_helpdeskticket", "itms_app.change_helpdeskticket",
     "itms_app.view_helpdeskticket", "itms_app.add_reservation",
     "itms_app.change_reservation", "itms_app.view_reservation",
     "itms_app.view_asset", "itms_app.view_category", "itms_app.view_location",
     "itms_app.view_softwarelicense", "itms_app.view_softwareinstallation",
     "itms_app.add_knowledgebase", "itms_app.change_knowledgebase",
     "itms_app.view_knowledgebase", "itms_app.add_trainingrecord",
     "itms_app.change_trainingrecord", "itms_app.view_trainingrecord",
     "auth.view_user", "itms_app.can_approve", "itms_app.can_reject"]),
   ("Service_Managers",
    ["itms_app.add_servicecatalog", "itms_app.change_servicecatalog",
     "itms_app.view_servicecatalog", "itms_app.add_servicerequest",
     "itms_app.change_servicerequest", "itms_app.view_servicerequest",
     "itms_app.add_changemanagement", "itms_app.change_changemanagement",
     "itms_app.view_changemanagement", "itms_app.add_inventoryitem",
     "itms_app.change_inventoryitem", "itms_app.view_inventoryitem",
     "itms_app.add_purchaserequest", "itms_app.change_purchaserequest",
     "itms_app.view_purchaserequest", "itms_app.add_purchaserequestitem",
     "itms_app.change_purchaserequestitem", "itms_app.view_purchaserequestitem",
     "itms_app.view_asset", "itms_app.view_vendor", "itms_app.view_category",
     "itms_app.can_approve", "itms_app.can_reject", "itms_app.can_generate_reports"]),
   ("Backup_Operators",
    ["itms_app.add_backuppolicy", "itms_app.change_backuppolicy",
     "itms_app.view_backuppolicy", "itms_app.add_backupjob", "itms_app.change_backupjob",
     "itms_app.view_backupjob", "itms_app.add_disasterrecoveryplan",
     "itms_app.change_disasterrecoveryplan", "itms_app.view_disasterrecoveryplan",
     "itms_app.add_disasterrecoverytest", "itms_app.change_disasterrecoverytest",
     "itms_app.view_disasterrecoverytest", "itms_app.view_asset", "itms_app.view_location",
     "itms_app.can_export", "itms_app.can_generate_reports"]),
   ("Reports_Viewers",
    ["itms_app.add_report", "itms_app.change_report", "itms_app.view_report",
     "itms_app.view_reportgeneration", "itms_app.view_asset", "itms_app.view_category",
     "itms_app.view_location", "itms_app.view_vendor", "itms_app.view_maintenancerecord",
     "itms_app.view_softwarelicense", "itms_app.view_softwareinstallation",
     "itms_app.view_helpdeskticket", "itms_app.view_reservation",
     "itms_app.view_systemmonitoring", "itms_app.view_alert",
     "itms_app.can_generate_reports", "itms_app.can_export"]),
   ("End_Users",
    ["itms_app.add_helpdeskticket", "itms_app.view_helpdeskticket",
     "itms_app.add_reservation", "itms_app.view_reservation",
     "itms_app.view_knowledgebase", "auth.view_user"])]

/-- `Command.setup_permissions` (`setup_permissions.py` lines 105-133):
the seeding run invoked by the management command, one write step per
configured group, under `@transaction.atomic`. -/
def setupPermissionsSteps (cts : List ContentType) (perms : List Permission) :
    List (AuthState → AuthState) :=
  PERMISSION_GROUPS.map (fun entry => fun st => permGroupStep cts perms st entry)

/-! ## Theorems -/

/-! ### C10: `resolved_at` is written once and never cleared -/

/-- C10: `HelpDeskTicket.save` sets `resolved_at` to the current time
exactly when the status is `resolved` and `resolved_at` is still unset;
in every other case it leaves `resolved_at` unchanged, so a set
`resolved_at` is never modified or cleared by later saves. -/
theorem helpdesk_save_resolved_at_frame (existing : List String) (ts ts2 : String)
    (rand : Nat) (now : Int) (t : HelpDeskTicket) :
    (HelpDeskTicket.save existing ts ts2 rand now t).resolved_at =
      (if t.status = "resolved" ∧ t.resolved_at = none then some now else t.resolved_at) ∧
    (∀ x : Int, t.resolved_at = some x →
      (HelpDeskTicket.save existing ts ts2 rand now t).resolved_at = some x) := by
  constructor
  · unfold HelpDeskTicket.save
    by_cases h1 : t.ticket_number = "" <;>
      by_cases h : t.status = "resolved" ∧ t.resolved_at = none <;>
      simp [h1, h]
  · intro x hx
    unfold HelpDeskTicket.save
    by_cases h1 : t.ticket_number = "" <;> simp [h1, hx]

/-- Witness for C10 at a concrete ticket whose `resolved_at` is set. -/
theorem helpdesk_save_resolved_at_frame_witness :
    (HelpDeskTicket.save [] "20240101" "20240101" 1234 99
      ⟨"TK1", "printer", "closed", some 5⟩).resolved_at = some 5 :=
  (helpdesk_save_resolved_at_frame [] "20240101" "20240101" 1234 99
    ⟨"TK1", "printer", "closed", some 5⟩).2 5 rfl

/-! ### C2: the software-license installation counter invariant -/

/-- The invariant of the claim: `0 ≤ current_installations ≤
max_installations`. -/
def LicenseInv (l : SoftwareLicense) : Prop :=
  0 ≤ l.current_installations ∧ l.current_installations ≤ l.max_installations

theorem mem_saveLicense {licenses : List SoftwareLicense} {l x : SoftwareLicense}
    (hx : x ∈ saveLicense licenses l) : x = l ∨ x ∈ licenses := by
  unfold saveLicense at hx
  obtain ⟨y, hy, hxy⟩ := List.mem_map.1 hx
  by_cases h : y.id = l.id
  · left; rw [← hxy, if_pos h]
  · right; rw [← hxy, if_neg h]; exact hy

/-- C2: the install and uninstall branches of
`software_license_detail_view` preserve `0 ≤ current_installations ≤
max_installations` for every license, and the install branch creates an
installation and increments the counter exactly when
`available_installations > 0`: when the license is exhausted the
request is rejected with an error and the database is unchanged. -/
theorem software_license_counter_invariant
    (db : LicenseDb) (license_id asset_id notes newId installation_id : String) :
    (∀ res, software_license_install db license_id asset_id notes newId = some res →
      (∀ l ∈ db.licenses, LicenseInv l) → ∀ l ∈ res.db.licenses, LicenseInv l) ∧
    (∀ res, software_license_uninstall db license_id installation_id = some res →
      (∀ l ∈ db.licenses, LicenseInv l) → ∀ l ∈ res.db.licenses, LicenseInv l) ∧
    (∀ lic a, db.licenses.find? (fun l => decide (l.id = license_id)) = some lic →
      asset_id ≠ "" →
      db.assets.find? (fun a2 => decide (a2.id = asset_id)) = some a →
      db.installations.filter (fun i =>
        decide (i.software_license = lic.id ∧ i.asset = a.id)) = [] →
      lic.available_installations ≤ 0 →
      software_license_install db license_id asset_id notes newId =
        some ⟨db, ["No available installations remaining for this license"]⟩) ∧
    (∀ lic a, db.licenses.find? (fun l => decide (l.id = license_id)) = some lic →
      asset_id ≠ "" →
      db.assets.find? (fun a2 => decide (a2.id = asset_id)) = some a →
      db.installations.filter (fun i =>
        decide (i.software_license = lic.id ∧ i.asset = a.id)) = [] →
      0 < lic.available_installations →
      software_license_install db license_id asset_id notes newId =
        some ⟨{ db with
            installations := db.installations ++ [⟨newId, lic.id, a.id, notes⟩],
            licenses := saveLicense db.licenses
              ({ lic with current_installations := lic.current_installations + 1 }) }, []⟩) := by
  refine ⟨?_, ?_, ?_, ?_⟩
  · intro res hres hinv l hl
    unfold software_license_install at hres
    cases hfind : db.licenses.find? (fun l => decide (l.id = license_id)) with
    | none => rw [hfind] at hres; simp at hres
    | some lic =>
      rw [hfind] at hres
      have hmemlic : lic ∈ db.licenses := List.mem_of_find?_eq_some hfind
      have hinvlic : LicenseInv lic := hinv lic hmemlic
      simp only [Option.some.injEq] at hres
      subst hres
      split at hl
      · exact hinv l hl
      · split at hl
        · exact hinv l hl
        · split at hl
          · split at hl
            · rename_i havail
              simp only at hl
              rcases mem_saveLicense hl with rfl | hmem
              · have h1 := hinvlic.1
                have h2 := hinvlic.2
                unfold SoftwareLicense.available_installations at havail
                constructor <;> simp only <;> omega
              · exact hinv l hmem
            · exact hinv l hl
          · exact hinv l hl
  · intro res hres hinv l hl
    unfold software_license_uninstall at hres
    cases hfind : db.licenses.find? (fun l => decide (l.id = license_id)) with
    | none => rw [hfind] at hres; simp at hres
    | some lic =>
      rw [hfind] at hres
      have hmemlic : lic ∈ db.licenses := List.mem_of_find?_eq_some hfind
      have hinvlic : LicenseInv lic := hinv lic hmemlic
      simp only [Option.some.injEq] at hres
      subst hres
      split at hl
      · exact hinv l hl
      · split at hl
        · exact hinv l hl
        · simp only at hl
          rcases mem_saveLicense hl with rfl | hmem
          · have h1 := hinvlic.1
            have h2 := hinvlic.2
            constructor <;> simp only <;> omega
          · exact hinv l hmem
  · intro lic a hfind haid hfa hnotinst hfull
    unfold software_license_install
    rw [hfind]
    simp only [Option.some.injEq]
    rw [if_neg haid, hfa]
    simp only
    rw [if_pos hnotinst, if_neg (not_lt.mpr hfull)]
  · intro lic a hfind haid hfa hnotinst havail
    unfold software_license_install
    rw [hfind]
    simp only [Option.some.injEq]
    rw [if_neg haid, hfa]
    simp only
    rw [if_pos hnotinst, if_pos havail]

/-- Witness for C2: a concrete exhausted license is rejected and left
unchanged. -/
theorem software_license_counter_invariant_witness :
    software_license_install
      ⟨[⟨"a1", "PC-1", "active", "Equipment"⟩], [⟨"l1", "Office", 3, 3⟩], []⟩
      "l1" "a1" "" "i1" =
      some ⟨⟨[⟨"a1", "PC-1", "active", "Equipment"⟩], [⟨"l1", "Office", 3, 3⟩], []⟩,
        ["No available installations remaining for this license"]⟩ :=
  (software_license_counter_invariant
      ⟨[⟨"a1", "PC-1", "active", "Equipment"⟩], [⟨"l1", "Office", 3, 3⟩], []⟩
      "l1" "a1" "" "i1" "").2.2.1 ⟨"l1", "Office", 3, 3⟩ ⟨"a1", "PC-1", "active", "Equipment"⟩
    (by decide) (by decide) (by decide) (by decide) (by decide)

/-! ### C9: booking-id generation in the prototype API -/

def mockResource1 : MockResource := ⟨"resource_1", "available"⟩

def mockBooking (i : String) : MockBooking :=
  ⟨i, "resource_1", "u1", "Team meeting", 0, 10, "pending"⟩

/-- An initial store with three bookings, as `MOCK_BOOKINGS` starts
with `booking_1` … (`main.py` lines 556-660). -/
def mockState0 : MockState :=
  ⟨[("resource_1", mockResource1)],
   [("booking_1", mockBooking "booking_1"), ("booking_2", mockBooking "booking_2"),
    ("booking_3", mockBooking "booking_3")]⟩

/-- The same store after `DELETE /api/bookings/booking_1`. -/
def mockState1 : MockState :=
  ⟨[("resource_1", mockResource1)],
   [("booking_2", mockBooking "booking_2"), ("booking_3", mockBooking "booking_3")]⟩

/-- The booking that `create_booking` writes over the existing
`booking_3` key in `mockState1`. -/
def collidedBooking : MockBooking :=
  ⟨"booking_3", "resource_1", "temp_user_id", "Client demo", 20, 30, "pending"⟩

/-- C9 (failing run): in the state reached from the three-booking store
by deleting `booking_1`, the id generated by `create_booking` —
`"booking_" + str(len + 1)` = `booking_3` — is already a key, so the
create silently overwrites the stored `booking_3` and the store size
does not grow. -/
theorem create_booking_overwrites_after_delete :
    delete_booking mockState0 "booking_1" = Except.ok mockState1 ∧
    dictContains mockState1.bookings "booking_3" = true ∧
    create_booking mockState1 ⟨"resource_1", "Client demo", 20, 30⟩ =
      Except.ok
        (⟨[("resource_1", mockResource1)],
          [("booking_2", mockBooking "booking_2"), ("booking_3", collidedBooking)]⟩,
         collidedBooking) ∧
    dictGet? mockState1.bookings "booking_3" = some (mockBooking "booking_3") ∧
    [("booking_2", mockBooking "booking_2"), ("booking_3", collidedBooking)].length =
      mockState1.bookings.length := by
  refine ⟨by rfl, by decide, by rfl, by decide, by decide⟩

/-! ### C5: transactions around multi-step writes -/

/-- With `transaction.atomic()`, a failure anywhere rolls the state
back. -/
theorem runTransactional_rollback {σ : Type} (steps : List (σ → σ)) (failAt : Option Nat)
    (st : σ) (h : (runTransactional true steps failAt st).2 = false) :
    (runTransactional true steps failAt st).1 = st := by
  unfold runTransactional at h ⊢
  cases hex : (execSteps steps failAt st).2 <;> simp [hex] at h ⊢

/-- C5 (counterexample): the software-installation branch is not
wrapped in a transaction; failing right after the first write
(creating the `SoftwareInstallation`) leaves a state different from the
pre-state, so the claim that every listed multi-step write is atomic is
false on the code. -/
theorem software_install_partial_write_counterexample :
    (runTransactional softwareInstallAtomic
        (installWriteSteps ⟨"l1", "Office", 5, 0⟩ "a1" "" "i1") (some 1)
        ⟨[⟨"a1", "PC-1", "active", "Equipment"⟩], [⟨"l1", "Office", 5, 0⟩], []⟩).2 = false ∧
    (runTransactional softwareInstallAtomic
        (installWriteSteps ⟨"l1", "Office", 5, 0⟩ "a1" "" "i1") (some 1)
        ⟨[⟨"a1", "PC-1", "active", "Equipment"⟩], [⟨"l1", "Office", 5, 0⟩], []⟩).1 ≠
      ⟨[⟨"a1", "PC-1", "active", "Equipment"⟩], [⟨"l1", "Office", 5, 0⟩], []⟩ := by
  constructor
  · rfl
  · decide

/-- C5 (amended): the signup block and the permission-seeding command
run atomically — any failure partway leaves the stored state exactly as
before — but the install branch of the license-detail view does not:
failing between its two writes persists the new installation row while
the license counter is unchanged. -/
theorem multi_step_write_transactionality :
    (∀ (u : String) (users : List String) (failAt : Option Nat),
      (runTransactional signupAtomic (signupSteps u) failAt users).2 = false →
      (runTransactional signupAtomic (signupSteps u) failAt users).1 = users) ∧
    (∀ (cts : List ContentType) (perms : List Permission) (st : AuthState)
        (failAt : Option Nat),
      (runTransactional setupPermissionsAtomic (setupPermissionsSteps cts perms) failAt st).2 =
        false →
      (runTransactional setupPermissionsAtomic (setupPermissionsSteps cts perms) failAt st).1 =
        st) ∧
    (∀ (lic : SoftwareLicense) (aid notes nid : String) (db : LicenseDb),
      runTransactional softwareInstallAtomic (installWriteSteps lic aid notes nid) (some 1) db =
        ({ db with installations := db.installations ++ [⟨nid, lic.id, aid, notes⟩] }, false)) := by
  refine ⟨?_, ?_, ?_⟩
  · intro u users failAt h
    exact runTransactional_rollback _ _ _ h
  · intro cts perms st failAt h
    exact runTransactional_rollback _ _ _ h
  · intro lic aid notes nid db
    rfl

/-- Witness for C5: a concrete rolled-back signup failure. -/
theorem multi_step_write_transactionality_witness :
    (runTransactional signupAtomic (signupSteps "alice") (some 0) ["bob"]).1 = ["bob"] :=
  multi_step_write_transactionality.1 "alice" ["bob"] (some 0) rfl

/-! ### C3: number generation — determinism and uniqueness -/

/-- Loop invariant of the collision loop: as long as some candidate
with counter at most 999 is free, the loop returns the first free
candidate at or after the current counter. -/
theorem genAux_spec (base fallback : String) (taken : String → Bool) :
    ∀ (fuel counter : Nat), counter + fuel = 1001 →
    (∃ c, counter ≤ c ∧ c ≤ 999 ∧ taken (numberCandidate base c) = false) →
    ∃ c, counter ≤ c ∧ c ≤ 999 ∧
      genAux base fallback taken fuel counter (numberCandidate base counter) =
        numberCandidate base c ∧
      taken (numberCandidate base c) = false ∧
      ∀ c', counter ≤ c' → c' < c → taken (numberCandidate base c') = true := by
  intro fuel
  induction fuel with
  | zero =>
    intro counter hsum hex
    obtain ⟨c, hc1, hc2, _⟩ := hex
    omega
  | succ n ih =>
    intro counter hsum hex
    obtain ⟨c, hc1, hc2, hc3⟩ := hex
    by_cases htaken : taken (numberCandidate base counter) = true
    · have hne : counter ≠ c := by
        intro h
        rw [h, hc3] at htaken
        cases htaken
      have hnot : ¬ 999 < counter + 1 := by omega
      have hcand : base ++ formatCounter (counter + 1) = numberCandidate base (counter + 1) :=
        rfl
      unfold genAux
      rw [if_pos htaken, if_neg hnot, hcand]
      obtain ⟨c0, h1, h2, h3, h4, h5⟩ :=
        ih (counter + 1) (by omega) ⟨c, by omega, hc2, hc3⟩
      refine ⟨c0, by omega, h2, h3, h4, ?_⟩
      intro c' hc' hc'2
      rcases Nat.eq_or_lt_of_le hc' with heq | hgt
      · rw [← heq]; exact htaken
      · exact h5 c' (by omega) hc'2
    · have hf : taken (numberCandidate base counter) = false := by
        cases hx : taken (numberCandidate base counter)
        · rfl
        · exact absurd hx htaken
      unfold genAux
      rw [if_neg htaken]
      exact ⟨counter, le_refl _, by omega, rfl, hf, fun c' h1 h2 => by omega⟩

/-- When every candidate up to counter 999 is taken, the loop ends in
the random fallback number, which is not checked against the table. -/
theorem genAux_all_taken (base fallback : String) (taken : String → Bool) :
    ∀ (fuel counter : Nat), counter + fuel = 1001 → counter ≤ 999 →
    (∀ c, counter ≤ c → c ≤ 999 → taken (numberCandidate base c) = true) →
    genAux base fallback taken fuel counter (numberCandidate base counter) = fallback := by
  intro fuel
  induction fuel with
  | zero => intro counter hsum hle _; omega
  | succ n ih =>
    intro counter hsum hle hall
    unfold genAux
    rw [if_pos (hall counter (le_refl _) hle)]
    by_cases h : 999 < counter + 1
    · rw [if_pos h]
    · have hcand : base ++ formatCounter (counter + 1) = numberCandidate base (counter + 1) :=
        rfl
      rw [if_neg h, hcand]
      exact ih (counter + 1) (by omega) (by omega) (fun c h1 h2 => hall c (by omega) h2)

theorem generateNumber_spec (base fallback : String) (taken : String → Bool)
    (hex : ∃ c, c ≤ 999 ∧ taken (numberCandidate base c) = false) :
    ∃ c, c ≤ 999 ∧
      generateNumber base fallback taken = numberCandidate base c ∧
      taken (numberCandidate base c) = false ∧
      ∀ c', c' < c → taken (numberCandidate base c') = true := by
  obtain ⟨c, h1, h2, h3, h4, h5⟩ := genAux_spec base fallback taken 1001 0 rfl
    (by obtain ⟨c, hc1, hc2⟩ := hex; exact ⟨c, Nat.zero_le _, hc1, hc2⟩)
  exact ⟨c, h2, h3, h4, fun c' hc' => h5 c' (Nat.zero_le _) hc'⟩

theorem generateNumber_all_taken (base fallback : String) (taken : String → Bool)
    (hall : ∀ c, c ≤ 999 → taken (numberCandidate base c) = true) :
    generateNumber base fallback taken = fallback :=
  genAux_all_taken base fallback taken 1001 0 rfl (by omega)
    (fun c _ h2 => hall c h2)

/-- `HelpDeskTicket.save` writes exactly the generated number into an
unset `ticket_number`. -/
theorem helpdesk_save_ticket_number (existing : List String) (ts ts2 : String) (rand : Nat)
    (now : Int) (t : HelpDeskTicket) (h : t.ticket_number = "") :
    (HelpDeskTicket.save existing ts ts2 rand now t).ticket_number =
      generateNumber ("TK" ++ ts) ("TK" ++ ts2 ++ toString rand) (numberTaken existing) := by
  unfold HelpDeskTicket.save
  rw [if_pos h]
  simp only []
  split <;> rfl

/-- `Reservation.save` writes exactly the generated number into an
unset `reservation_number`. -/
theorem reservation_save_number (existing : List String) (ts ts2 : String) (rand : Nat)
    (now : Int) (r : Reservation) (h : r.reservation_number = "") :
    (Reservation.save existing ts ts2 rand now r).reservation_number =
      generateNumber ("RSV" ++ ts) ("RSV" ++ ts2 ++ toString rand) (numberTaken existing) := by
  unfold Reservation.save
  rw [if_pos h]
  simp only []
  split <;> rfl

/-- C3 (amended): as long as some candidate with counter at most 999 is
free — i.e. fewer than a thousand collisions on the same timestamp base
— the number generated by `HelpDeskTicket.save` / `Reservation.save` is
the base extended with the smallest free counter suffix (the bare base
when it is itself free), it avoids every existing number, and it does
not depend on the random fallback suffix. -/
theorem number_generation_unique_deterministic (existing : List String) (ts ts2 : String)
    (rand : Nat) (now : Int) (t : HelpDeskTicket) (r : Reservation) :
    (t.ticket_number = "" →
      (HelpDeskTicket.save existing ts ts2 rand now t).ticket_number =
        generateNumber ("TK" ++ ts) ("TK" ++ ts2 ++ toString rand) (numberTaken existing)) ∧
    (r.reservation_number = "" →
      (Reservation.save existing ts ts2 rand now r).reservation_number =
        generateNumber ("RSV" ++ ts) ("RSV" ++ ts2 ++ toString rand) (numberTaken existing)) ∧
    (∀ (base fallback : String) (taken : String → Bool),
      (∃ c, c ≤ 999 ∧ taken (numberCandidate base c) = false) →
      ∃ c, c ≤ 999 ∧
        generateNumber base fallback taken = numberCandidate base c ∧
        taken (numberCandidate base c) = false ∧
        ∀ c', c' < c → taken (numberCandidate base c') = true) ∧
    (∀ (base fallback fallback2 : String) (taken : String → Bool),
      (∃ c, c ≤ 999 ∧ taken (numberCandidate base c) = false) →
      generateNumber base fallback taken = generateNumber base fallback2 taken) := by
  refine ⟨helpdesk_save_ticket_number existing ts ts2 rand now t,
    reservation_save_number existing ts ts2 rand now r,
    fun base fallback taken hex => generateNumber_spec base fallback taken hex, ?_⟩
  intro base fallback fallback2 taken hex
  obtain ⟨c1, h1a, h1b, h1c, h1d⟩ := generateNumber_spec base fallback taken hex
  obtain ⟨c2, h2a, h2b, h2c, h2d⟩ := generateNumber_spec base fallback2 taken hex
  have hcc : c1 = c2 := by
    rcases Nat.lt_trichotomy c1 c2 with h | h | h
    · rw [h2d c1 h] at h1c; exact absurd h1c (by simp)
    · exact h
    · rw [h1d c2 h] at h2c; exact absurd h2c (by simp)
  rw [h1b, h2b, hcc]

/-- Witness for C3: concrete instances of the save-level equations and
of the least-free-candidate description. -/
theorem number_generation_unique_deterministic_witness :
    (HelpDeskTicket.save ["TK9"] "9" "9" 3 0 ⟨"", "x", "open", none⟩).ticket_number =
      generateNumber "TK9" ("TK9" ++ toString 3) (numberTaken ["TK9"]) ∧
    (∃ c, c ≤ 999 ∧
      generateNumber "TK9" "F" (numberTaken ["TK9"]) = numberCandidate "TK9" c ∧
      numberTaken ["TK9"] (numberCandidate "TK9" c) = false ∧
      ∀ c', c' < c → numberTaken ["TK9"] (numberCandidate "TK9" c') = true) := by
  constructor
  · exact (number_generation_unique_deterministic ["TK9"] "9" "9" 3 0
      ⟨"", "x", "open", none⟩
      ⟨"", "x", "", "a1", "meeting_room", "pending", 0, 1, none, "", "", "", none⟩).1 rfl
  · exact (number_generation_unique_deterministic ["TK9"] "9" "9" 3 0
      ⟨"", "x", "open", none⟩
      ⟨"", "x", "", "a1", "meeting_room", "pending", 0, 1, none, "", "", "", none⟩).2.2.1
      "TK9" "F" (numberTaken ["TK9"]) ⟨1, by decide, by decide⟩

def c3Base : String := "TK20250101120000"

/-- A reachable table: the base and all 999 suffixed candidates exist,
plus the ticket `TK202501011200001234` from an earlier random
fallback. -/
def c3Existing : List String :=
  (List.range 1000).map (numberCandidate c3Base) ++ [c3Base ++ "1234"]

def c3Ticket : HelpDeskTicket := ⟨"", "broken printer", "open", none⟩

theorem c3Existing_all_taken :
    ∀ c, c ≤ 999 → numberTaken c3Existing (numberCandidate c3Base c) = true := by
  intro c hc
  unfold numberTaken
  apply List.elem_eq_true_of_mem
  apply List.mem_append_left
  exact List.mem_map.2 ⟨c, List.mem_range.2 (by omega), rfl⟩

/-- C3 (counterexample): with a thousand collisions on the same base,
`HelpDeskTicket.save` falls into the random branch: the produced
ticket number collides with an existing one (it is never re-checked)
and it depends on the random draw, refuting both the uniqueness and the
determinism of the claim. -/
theorem ticket_number_collision_counterexample :
    c3Existing.contains
      ((HelpDeskTicket.save c3Existing "20250101120000" "20250101120000" 1234 0
        c3Ticket).ticket_number) = true ∧
    (HelpDeskTicket.save c3Existing "20250101120000" "20250101120000" 1234 0
        c3Ticket).ticket_number ≠
      (HelpDeskTicket.save c3Existing "20250101120000" "20250101120000" 5678 0
        c3Ticket).ticket_number := by
  have h1234 : (HelpDeskTicket.save c3Existing "20250101120000" "20250101120000" 1234 0
      c3Ticket).ticket_number = c3Base ++ "1234" := by
    rw [helpdesk_save_ticket_number c3Existing "20250101120000" "20250101120000" 1234 0
      c3Ticket rfl]
    exact generateNumber_all_taken _ _ _ c3Existing_all_taken
  have h5678 : (HelpDeskTicket.save c3Existing "20250101120000" "20250101120000" 5678 0
      c3Ticket).ticket_number = c3Base ++ "5678" := by
    rw [helpdesk_save_ticket_number c3Existing "20250101120000" "20250101120000" 5678 0
      c3Ticket rfl]
    exact generateNumber_all_taken _ _ _ c3Existing_all_taken
  constructor
  · rw [h1234]
    apply List.elem_eq_true_of_mem
    apply List.mem_append_right
    exact List.mem_singleton.2 rfl
  · rw [h1234, h5678]
    decide

/-! ### C1, C7, C8: the reservation-creation view -/

/-- `Reservation.save` touches only `reservation_number` and
`approved_at`. -/
theorem reservation_save_frame (existing : List String) (ts ts2 : String) (rand : Nat)
    (now : Int) (r : Reservation) :
    (Reservation.save existing ts ts2 rand now r).start_datetime = r.start_datetime ∧
    (Reservation.save existing ts ts2 rand now r).end_datetime = r.end_datetime ∧
    (Reservation.save existing ts ts2 rand now r).status = r.status := by
  unfold Reservation.save
  simp only []
  split <;> split <;> exact ⟨rfl, rfl, rfl⟩

/-- The database insert preserves the date ordering of all stored
reservations. -/
theorem insertReservation_preserves_order (db : ReservationDb) (r : Reservation)
    (db2 : ReservationDb) (hok : insertReservation db r = Except.ok db2)
    (hord : ∀ x ∈ db.reservations, x.start_datetime < x.end_datetime) :
    ∀ x ∈ db2.reservations, x.start_datetime < x.end_datetime := by
  unfold insertReservation at hok
  split at hok
  · rename_i hlt
    cases hok
    intro x hx
    rcases List.mem_append.1 hx with hmem | hmem
    · exact hord x hmem
    · rw [List.mem_singleton.1 hmem]
      exact hlt
  · cases hok

/-- A successful find on the asset id pins the id field. -/
theorem findAsset_id {db : ReservationDb} {aid : String} {a : Asset}
    (h : findAsset db aid = some a) : a.id = aid := by
  unfold findAsset at h
  have := List.find?_some h
  exact of_decide_eq_true this

/-- C1: when the parsed `[s, e)` range overlaps an existing `pending`
or `approved` reservation for the requested asset, the view rejects the
POST — errors are reported, the database is unchanged, nothing is
created; when no such overlap exists and every other validation passes,
the reservation is created with status `pending` and appended to the
store. -/
theorem create_reservation_overlap (P : Parsers) (ts ts2 : String) (rand : Nat) (now : Int)
    (db : ReservationDb) (req : ReservationRequest) (s e : Int) :
    (req.start_datetime ≠ "" → P.parseDT req.start_datetime = some s →
     req.end_datetime ≠ "" → P.parseDT req.end_datetime = some e →
     (∃ r ∈ db.reservations, r.asset = req.asset ∧
        (r.status = "pending" ∨ r.status = "approved") ∧
        r.start_datetime < e ∧ s < r.end_datetime) →
     (create_reservation_view P ts ts2 rand now db req).db = db ∧
     (create_reservation_view P ts ts2 rand now db req).created = none ∧
     (create_reservation_view P ts ts2 rand now db req).errors ≠ []) ∧
    (∀ (a : Asset) (np : Option Int),
     5 ≤ req.title.length → req.asset ≠ "" → req.reservation_type ≠ "" →
     req.start_datetime ≠ "" → P.parseDT req.start_datetime = some s →
     req.end_datetime ≠ "" → P.parseDT req.end_datetime = some e →
     s < e → now ≤ s →
     findAsset db req.asset = some a →
     reservationConflicts db a s e = [] →
     (if req.number_of_people = "" then some none
       else (P.parseInt req.number_of_people).map some) = some np →
     create_reservation_view P ts ts2 rand now db req =
       ⟨{ db with reservations := db.reservations ++
            [Reservation.save (db.reservations.map Reservation.reservation_number) ts ts2 rand
              now ⟨"", req.title, req.description, a.id, req.reservation_type, "pending", s, e,
                np, req.purpose, req.contact_phone, req.special_requirements, none⟩] },
        [],
        some (Reservation.save (db.reservations.map Reservation.reservation_number) ts ts2 rand
          now ⟨"", req.title, req.description, a.id, req.reservation_type, "pending", s, e,
            np, req.purpose, req.contact_phone, req.special_requirements, none⟩)⟩) := by
  constructor
  · intro hs0 hs he0 he hover
    have herr : reservationErrors P now db req ≠ [] := by
      unfold reservationErrors
      simp only [if_neg hs0, if_neg he0, hs, he]
      cases hfa : findAsset db req.asset with
      | none => simp
      | some a =>
        have haid : a.id = req.asset := findAsset_id hfa
        obtain ⟨r, hr, hras, hrst, hrlt, hrgt⟩ := hover
        have hconf : reservationConflicts db a s e ≠ [] := by
          have hmem : r ∈ reservationConflicts db a s e := by
            unfold reservationConflicts
            refine List.mem_filter.2 ⟨hr, ?_⟩
            exact decide_eq_true ⟨by rw [haid]; exact hras, hrst, hrlt, hrgt⟩
          exact List.ne_nil_of_mem hmem
        simp [hconf]
    unfold create_reservation_view
    rw [if_pos herr]
    exact ⟨rfl, rfl, herr⟩
  · intro a np h5 ha0 hty hs0 hs he0 he hord hpast hfa hconf hnp
    have htitle : ¬ req.title = "" := by
      intro h
      rw [h] at h5
      simp [String.length] at h5
    have herr : reservationErrors P now db req = [] := by
      unfold reservationErrors
      simp only [if_neg hs0, if_neg he0, hs, he, if_neg htitle,
        if_neg (not_lt.mpr h5), if_neg ha0, if_neg hty, hfa]
      simp [hconf, not_le.mpr hord, not_lt.mpr hpast]
    unfold create_reservation_view
    rw [if_neg (by rw [herr]; exact fun h => h rfl)]
    unfold reservationCreate
    rw [hfa]
    simp only [if_neg hs0, if_neg he0, hs, he, hnp]
    have hframe := reservation_save_frame (db.reservations.map Reservation.reservation_number)
      ts ts2 rand now ⟨"", req.title, req.description, a.id, req.reservation_type, "pending",
        s, e, np, req.purpose, req.contact_phone, req.special_requirements, none⟩
    unfold insertReservation
    rw [if_pos (by rw [hframe.1, hframe.2.1]; exact hord)]

/-- Witness for C1 at a concrete database: a conflicting reservation
blocks creation, and a conflict-free one goes through. -/
theorem create_reservation_overlap_witness :
    ((create_reservation_view ⟨fun x => if x = "S" then some 10 else some 20, fun _ => none⟩
        "1" "1" 7 0
        ⟨[⟨"a1", "Room", "active", "Meeting Room"⟩],
          [⟨"RSV1", "standup", "", "a1", "meeting_room", "approved", 5, 15, none, "", "", "",
            none⟩]⟩
        ⟨"team sync", "", "a1", "meeting_room", "S", "E", "", "", "", ""⟩).created = none) ∧
    ((create_reservation_view ⟨fun x => if x = "S" then some 30 else some 40, fun _ => none⟩
        "1" "1" 7 0
        ⟨[⟨"a1", "Room", "active", "Meeting Room"⟩],
          [⟨"RSV1", "standup", "", "a1", "meeting_room", "approved", 5, 15, none, "", "", "",
            none⟩]⟩
        ⟨"team sync", "", "a1", "meeting_room", "S", "E", "", "", "", ""⟩).created ≠ none) := by
  constructor
  · exact ((create_reservation_overlap ⟨fun x => if x = "S" then some 10 else some 20,
      fun _ => none⟩ "1" "1" 7 0
      ⟨[⟨"a1", "Room", "active", "Meeting Room"⟩],
        [⟨"RSV1", "standup", "", "a1", "meeting_room", "approved", 5, 15, none, "", "", "",
          none⟩]⟩
      ⟨"team sync", "", "a1", "meeting_room", "S", "E", "", "", "", ""⟩ 10 20).1
      (by decide) (by decide) (by decide) (by decide)
      ⟨⟨"RSV1", "standup", "", "a1", "meeting_room", "approved", 5, 15, none, "", "", "",
        none⟩, by decide, by decide, Or.inr rfl, by decide, by decide⟩).2.1
  · have h := (create_reservation_overlap ⟨fun x => if x = "S" then some 30 else some 40,
      fun _ => none⟩ "1" "1" 7 0
      ⟨[⟨"a1", "Room", "active", "Meeting Room"⟩],
        [⟨"RSV1", "standup", "", "a1", "meeting_room", "approved", 5, 15, none, "", "", "",
          none⟩]⟩
      ⟨"team sync", "", "a1", "meeting_room", "S", "E", "", "", "", ""⟩ 30 40).2
      ⟨"a1", "Room", "active", "Meeting Room"⟩ none
      (by decide) (by decide) (by decide) (by decide) (by decide) (by decide) (by decide)
      (by decide) (by decide) (by decide) (by decide) (by decide)
    rw [h]
    simp

/-- C7: every stored reservation satisfies `end_datetime >
start_datetime` — the insert enforces the check constraint and rejects
any violating row, the view independently rejects a submission with
`end ≤ start` without touching the store, and a store satisfying the
ordering still satisfies it after any request to the creation view. -/
theorem reservation_date_ordering (P : Parsers) (ts ts2 : String) (rand : Nat) (now : Int)
    (db : ReservationDb) (req : ReservationRequest) (s e : Int) :
    (∀ r : Reservation, r.end_datetime ≤ r.start_datetime →
      insertReservation db r =
        Except.error "CHECK constraint end_datetime_after_start_datetime failed") ∧
    (∀ (r : Reservation) (db2 : ReservationDb), insertReservation db r = Except.ok db2 →
      (∀ x ∈ db.reservations, x.start_datetime < x.end_datetime) →
      ∀ x ∈ db2.reservations, x.start_datetime < x.end_datetime) ∧
    (req.start_datetime ≠ "" → P.parseDT req.start_datetime = some s →
     req.end_datetime ≠ "" → P.parseDT req.end_datetime = some e → e ≤ s →
     (create_reservation_view P ts ts2 rand now db req).db = db ∧
     (create_reservation_view P ts ts2 rand now db req).created = none) ∧
    ((∀ x ∈ db.reservations, x.start_datetime < x.end_datetime) →
     ∀ x ∈ (create_reservation_view P ts ts2 rand now db req).db.reservations,
       x.start_datetime < x.end_datetime) := by
  refine ⟨?_, ?_, ?_, ?_⟩
  · intro r hle
    unfold insertReservation
    rw [if_neg (not_lt.mpr hle)]
  · intro r db2 hok hord
    exact insertReservation_preserves_order db r db2 hok hord
  · intro hs0 hs he0 he hle
    have herr : reservationErrors P now db req ≠ [] := by
      unfold reservationErrors
      simp only [if_neg hs0, if_neg he0, hs, he]
      cases hfa : findAsset db req.asset <;> simp [hle]
    unfold create_reservation_view
    rw [if_pos herr]
    exact ⟨rfl, rfl⟩
  · intro hord
    unfold create_reservation_view
    simp only []
    split
    · exact hord
    · unfold reservationCreate
      split
      · exact hord
      · split
        · split
          · exact hord
          · simp only []
            split
            · rename_i hins
              exact insertReservation_preserves_order _ _ _ hins hord
            · exact hord
        · exact hord

/-- Witness for C7: a concrete inverted range is rejected by the view
and by the insert. -/
theorem reservation_date_ordering_witness :
    ((create_reservation_view ⟨fun x => if x = "S" then some 50 else some 40, fun _ => none⟩
        "1" "1" 7 0 ⟨[⟨"a1", "Room", "active", "Meeting Room"⟩], []⟩
        ⟨"team sync", "", "a1", "meeting_room", "S", "E", "", "", "", ""⟩).created = none) ∧
    insertReservation ⟨[], []⟩
        ⟨"RSV1", "x", "", "a1", "meeting_room", "pending", 9, 9, none, "", "", "", none⟩ =
      Except.error "CHECK constraint end_datetime_after_start_datetime failed" := by
  constructor
  · exact ((reservation_date_ordering ⟨fun x => if x = "S" then some 50 else some 40,
      fun _ => none⟩ "1" "1" 7 0 ⟨[⟨"a1", "Room", "active", "Meeting Room"⟩], []⟩
      ⟨"team sync", "", "a1", "meeting_room", "S", "E", "", "", "", ""⟩ 50 40).2.2.1
      (by decide) (by decide) (by decide) (by decide) (by decide)).2
  · exact (reservation_date_ordering ⟨fun _ => none, fun _ => none⟩ "1" "1" 7 0 ⟨[], []⟩
      ⟨"", "", "", "", "", "", "", "", "", ""⟩ 0 0).1
      ⟨"RSV1", "x", "", "a1", "meeting_room", "pending", 9, 9, none, "", "", "", none⟩
      (by decide)

/-- C8: a reservation-creation or software-installation request naming
an asset id with no matching `Asset` row is answered with the
`Selected asset does not exist` message and creates nothing; the
database is unchanged. -/
theorem missing_asset_converted_to_message (P : Parsers) (ts ts2 : String) (rand : Nat)
    (now : Int) (db : ReservationDb) (req : ReservationRequest) (s e : Int)
    (ldb : LicenseDb) (license_id asset_id notes newId : String) :
    (req.start_datetime ≠ "" → P.parseDT req.start_datetime = some s →
     req.end_datetime ≠ "" → P.parseDT req.end_datetime = some e →
     findAsset db req.asset = none →
     "Selected asset does not exist." ∈
        (create_reservation_view P ts ts2 rand now db req).errors ∧
     (create_reservation_view P ts ts2 rand now db req).db = db ∧
     (create_reservation_view P ts ts2 rand now db req).created = none) ∧
    (∀ lic, ldb.licenses.find? (fun l => decide (l.id = license_id)) = some lic →
     asset_id ≠ "" →
     ldb.assets.find? (fun a => decide (a.id = asset_id)) = none →
     software_license_install ldb license_id asset_id notes newId =
       some ⟨ldb, ["Selected asset does not exist"]⟩) := by
  constructor
  · intro hs0 hs he0 he hna
    have herr : reservationErrors P now db req ≠ [] := by
      unfold reservationErrors
      simp only [if_neg hs0, if_neg he0, hs, he, hna]
      simp
    refine ⟨?_, ?_, ?_⟩
    · unfold create_reservation_view
      rw [if_pos herr]
      unfold reservationErrors
      simp only [if_neg hs0, if_neg he0, hs, he, hna]
      simp
    · unfold create_reservation_view
      rw [if_pos herr]
    · unfold create_reservation_view
      rw [if_pos herr]
  · intro lic hfind haid hna
    unfold software_license_install
    rw [hfind]
    simp only [Option.some.injEq]
    rw [if_neg haid, hna]

/-- Witness for C8 at a concrete missing asset id. -/
theorem missing_asset_converted_to_message_witness :
    ("Selected asset does not exist." ∈
      (create_reservation_view ⟨fun x => if x = "S" then some 30 else some 40, fun _ => none⟩
        "1" "1" 7 0 ⟨[], []⟩
        ⟨"team sync", "", "ghost", "meeting_room", "S", "E", "", "", "", ""⟩).errors) ∧
    software_license_install ⟨[], [⟨"l1", "Office", 3, 0⟩], []⟩ "l1" "ghost" "" "i1" =
      some ⟨⟨[], [⟨"l1", "Office", 3, 0⟩], []⟩, ["Selected asset does not exist"]⟩ := by
  constructor
  · exact ((missing_asset_converted_to_message
      ⟨fun x => if x = "S" then some 30 else some 40, fun _ => none⟩ "1" "1" 7 0 ⟨[], []⟩
      ⟨"team sync", "", "ghost", "meeting_room", "S", "E", "", "", "", ""⟩ 30 40
      ⟨[], [], []⟩ "" "" "" "").1
      (by decide) (by decide) (by decide) (by decide) (by decide)).1
  · exact (missing_asset_converted_to_message ⟨fun _ => none, fun _ => none⟩ "1" "1" 7 0
      ⟨[], []⟩ ⟨"", "", "", "", "", "", "", "", "", ""⟩ 0 0
      ⟨[], [⟨"l1", "Office", 3, 0⟩], []⟩ "l1" "ghost" "" "i1").2
      ⟨"l1", "Office", 3, 0⟩ (by decide) (by decide) (by decide)

/-! ### C4, C6: the permission-seeding run

The two claims about `create_groups_and_permissions` are settled
through one characterization: a run turns the
`auth_group_permissions` table into the rows not touched by the
configured groups followed by one deduplicated block per configured
group, and the group table into the old rows plus the missing names. -/

/-- Left fold of `group.permissions.add` dedup behaviour on plain
permission ids. -/
def dedupAdd (acc : List Nat) (pids : List Nat) : List Nat :=
  pids.foldl (fun a pid => if pid ∈ a then a else a ++ [pid]) acc

/-- The block of group-permission rows a group contributes. -/
def gblock (g : String) (pids : List Nat) : List (String × Nat) :=
  pids.map (fun pid => (g, pid))

/-- Rows whose group is not among the given names. -/
def clearMany (rows : List (String × Nat)) (gs : List String) : List (String × Nat) :=
  rows.filter (fun row => decide (¬ row.1 ∈ gs))

def addGroupRows (groups : List String) (names : List String) : List String :=
  names.foldl addGroupRow groups

/-- The per-group blocks a seeding run appends, in configuration
order. -/
def seededRows (config : List (String × List String)) (cts : List ContentType)
    (perms : List Permission) : List (String × Nat) :=
  (config.map (fun ent =>
    gblock ent.1 (dedupAdd [] ((ent.2.map (resolvePermCode cts perms)).flatten)))).flatten

theorem mem_gblock {g g2 : String} {pid : Nat} {pids : List Nat} :
    (g2, pid) ∈ gblock g pids ↔ g2 = g ∧ pid ∈ pids := by
  unfold gblock
  constructor
  · intro h
    obtain ⟨x, hx, hxy⟩ := List.mem_map.1 h
    cases hxy
    exact ⟨rfl, hx⟩
  · rintro ⟨rfl, h⟩
    exact List.mem_map.2 ⟨pid, h, rfl⟩

theorem gblock_append (g : String) (a b : List Nat) :
    gblock g (a ++ b) = gblock g a ++ gblock g b :=
  List.map_append _ a b

theorem not_mem_clearGroupPerms (rows : List (String × Nat)) (g : String) (pid : Nat) :
    (g, pid) ∉ clearGroupPerms rows g := by
  intro h
  have := (List.mem_filter.1 h).2
  simp at this

theorem addPermRows_cons (rows : List (String × Nat)) (g : String) (p : Nat)
    (rest : List Nat) :
    addPermRows rows g (p :: rest) = addPermRows (addPermRow rows g p) g rest := rfl

theorem dedupAdd_cons (acc : List Nat) (p : Nat) (rest : List Nat) :
    dedupAdd acc (p :: rest) = dedupAdd (if p ∈ acc then acc else acc ++ [p]) rest := rfl

/-- Adding the resolved ids of one group onto a base that carries no
row of that group appends exactly the deduplicated block. -/
theorem addPermRows_block (g : String) (pids : List Nat) :
    ∀ (base : List (String × Nat)) (acc : List Nat),
    (∀ pid2 : Nat, (g, pid2) ∉ base) →
    addPermRows (base ++ gblock g acc) g pids = base ++ gblock g (dedupAdd acc pids) := by
  induction pids with
  | nil => intro base acc hbase; rfl
  | cons p rest ih =>
    intro base acc hbase
    have hmem : (g, p) ∈ base ++ gblock g acc ↔ p ∈ acc := by
      rw [List.mem_append]
      constructor
      · rintro (h | h)
        · exact absurd h (hbase p)
        · exact (mem_gblock.1 h).2
      · intro h
        exact Or.inr (mem_gblock.2 ⟨rfl, h⟩)
    rw [addPermRows_cons, dedupAdd_cons]
    by_cases hp : p ∈ acc
    · have hstep : addPermRow (base ++ gblock g acc) g p = base ++ gblock g acc := by
        unfold addPermRow
        rw [if_pos (hmem.2 hp)]
      rw [hstep, if_pos hp]
      exact ih base acc hbase
    · have hstep : addPermRow (base ++ gblock g acc) g p = base ++ gblock g (acc ++ [p]) := by
        unfold addPermRow
        rw [if_neg (fun h => hp (hmem.1 h)), gblock_append, List.append_assoc]
        rfl
      rw [hstep, if_neg hp]
      exact ih base (acc ++ [p]) hbase

theorem clearGroupPerms_append (a b : List (String × Nat)) (g : String) :
    clearGroupPerms (a ++ b) g = clearGroupPerms a g ++ clearGroupPerms b g :=
  List.filter_append a b

theorem clearMany_append (a b : List (String × Nat)) (gs : List String) :
    clearMany (a ++ b) gs = clearMany a gs ++ clearMany b gs :=
  List.filter_append a b

theorem clearMany_cons (rows : List (String × Nat)) (g : String) (gs : List String) :
    clearMany (clearGroupPerms rows g) gs = clearMany rows (g :: gs) := by
  induction rows with
  | nil => rfl
  | cons r rest ih =>
    unfold clearGroupPerms clearMany at ih ⊢
    by_cases h1 : r.1 = g
    · rw [List.filter_cons, if_neg (by simp [h1])]
      rw [List.filter_cons, if_neg (by simp [h1])]
      exact ih
    · rw [List.filter_cons, if_pos (by simp [h1])]
      by_cases h2 : r.1 ∈ gs
      · rw [List.filter_cons, if_neg (by simp [h2])]
        rw [List.filter_cons, if_neg (by simp [h2])]
        exact ih
      · rw [List.filter_cons, if_pos (by simp [h2])]
        rw [List.filter_cons, if_pos (by simp [h1, h2])]
        rw [ih]

theorem clearMany_nil (rows : List (String × Nat)) : clearMany rows [] = rows := by
  induction rows with
  | nil => rfl
  | cons r rest ih =>
    unfold clearMany at ih ⊢
    rw [List.filter_cons, if_pos (by simp)]
    rw [ih]

theorem clearMany_gblock_of_not_mem (g : String) (pids : List Nat) (gs : List String)
    (h : g ∉ gs) : clearMany (gblock g pids) gs = gblock g pids := by
  induction pids with
  | nil => rfl
  | cons p rest ih =>
    unfold clearMany gblock at ih ⊢
    simp only [List.map_cons]
    rw [List.filter_cons, if_pos (by simp [h])]
    rw [ih]

theorem clearMany_of_all_mem (rows : List (String × Nat)) (gs : List String)
    (h : ∀ r ∈ rows, r.1 ∈ gs) : clearMany rows gs = [] := by
  induction rows with
  | nil => rfl
  | cons r rest ih =>
    unfold clearMany at ih ⊢
    rw [List.filter_cons, if_neg (by simp [h r (List.mem_cons_self r rest)])]
    exact ih fun x hx => h x (List.mem_cons_of_mem r hx)

theorem clearMany_idem (rows : List (String × Nat)) (gs : List String) :
    clearMany (clearMany rows gs) gs = clearMany rows gs := by
  induction rows with
  | nil => rfl
  | cons r rest ih =>
    unfold clearMany at ih ⊢
    by_cases h : r.1 ∈ gs
    · rw [List.filter_cons, if_neg (by simp [h])]
      exact ih
    · rw [List.filter_cons, if_pos (by simp [h])]
      rw [List.filter_cons, if_pos (by simp [h])]
      rw [ih]

theorem create_groups_cons (cts : List ContentType) (perms : List Permission)
    (ent : String × List String) (rest : List (String × List String)) (st : AuthState) :
    create_groups_and_permissions (ent :: rest) cts perms st =
      create_groups_and_permissions rest cts perms (permGroupStep cts perms st ent) := rfl

/-- One characterization of a whole seeding run: groups get the missing
names appended; the permission table keeps the rows of unconfigured
groups and then carries one deduplicated block per configured group, in
configuration order. -/
theorem create_groups_characterization (cts : List ContentType) (perms : List Permission) :
    ∀ (config : List (String × List String)) (st : AuthState),
    (config.map Prod.fst).Nodup →
    create_groups_and_permissions config cts perms st =
      ⟨addGroupRows st.groups (config.map Prod.fst),
       clearMany st.group_permissions (config.map Prod.fst) ++ seededRows config cts perms⟩ := by
  intro config
  induction config with
  | nil =>
    intro st _
    cases st with
    | mk groups rows =>
      unfold create_groups_and_permissions addGroupRows seededRows
      simp only [List.foldl_nil, List.map_nil, List.flatten_nil, List.append_nil]
      rw [clearMany_nil]
  | cons ent rest ih =>
    intro st hnodup
    have hnotin : ent.1 ∉ rest.map Prod.fst := by
      simp only [List.map_cons, List.nodup_cons] at hnodup
      exact hnodup.1
    have hnodup2 : (rest.map Prod.fst).Nodup := by
      simp only [List.map_cons, List.nodup_cons] at hnodup
      exact hnodup.2
    rw [create_groups_cons, ih _ hnodup2]
    unfold permGroupStep
    simp only []
    have hblock :
        addPermRows (clearGroupPerms st.group_permissions ent.1) ent.1
          ((ent.2.map (resolvePermCode cts perms)).flatten) =
        clearGroupPerms st.group_permissions ent.1 ++
          gblock ent.1 (dedupAdd [] ((ent.2.map (resolvePermCode cts perms)).flatten)) := by
      have h0 := addPermRows_block ent.1 ((ent.2.map (resolvePermCode cts perms)).flatten)
        (clearGroupPerms st.group_permissions ent.1) []
        (fun pid2 => not_mem_clearGroupPerms st.group_permissions ent.1 pid2)
      have h1 : gblock ent.1 [] = ([] : List (String × Nat)) := rfl
      rw [h1, List.append_nil] at h0
      exact h0
    rw [hblock]
    have hrows :
        clearMany (clearGroupPerms st.group_permissions ent.1 ++
            gblock ent.1 (dedupAdd [] ((ent.2.map (resolvePermCode cts perms)).flatten)))
          (rest.map Prod.fst) ++ seededRows rest cts perms =
        clearMany st.group_permissions ((ent :: rest).map Prod.fst) ++
          seededRows (ent :: rest) cts perms := by
      rw [clearMany_append, clearMany_cons,
        clearMany_gblock_of_not_mem _ _ _ hnotin]
      unfold seededRows
      simp only [List.map_cons, List.flatten_cons]
      rw [List.append_assoc]
    rw [hrows]
    rfl

/-- Group-table lemmas for idempotence. -/
theorem mem_addGroupRow_of_mem (gs : List String) (n q : String) (h : n ∈ gs) :
    n ∈ addGroupRow gs q := by
  unfold addGroupRow
  split
  · exact h
  · exact List.mem_append_left _ h

theorem mem_foldl_addGroupRow (names : List String) :
    ∀ (gs : List String) (n : String), n ∈ gs → n ∈ names.foldl addGroupRow gs := by
  induction names with
  | nil => intro gs n h; exact h
  | cons q rest ih =>
    intro gs n h
    simp only [List.foldl_cons]
    exact ih _ n (mem_addGroupRow_of_mem gs n q h)

theorem mem_addGroupRows (names : List String) :
    ∀ (gs : List String) (n : String), n ∈ names → n ∈ addGroupRows gs names := by
  induction names with
  | nil => intro gs n h; cases h
  | cons m rest ih =>
    intro gs n h
    unfold addGroupRows at ih ⊢
    simp only [List.foldl_cons]
    rcases List.mem_cons.1 h with rfl | h2
    · apply mem_foldl_addGroupRow
      unfold addGroupRow
      split
      · assumption
      · exact List.mem_append_right _ (List.mem_singleton.2 rfl)
    · exact ih _ n h2

theorem addGroupRows_of_all_mem (names : List String) :
    ∀ gs : List String, (∀ n ∈ names, n ∈ gs) → addGroupRows gs names = gs := by
  induction names with
  | nil => intro gs _; rfl
  | cons m rest ih =>
    intro gs hall
    unfold addGroupRows at ih ⊢
    simp only [List.foldl_cons]
    have hm : addGroupRow gs m = gs := by
      unfold addGroupRow
      rw [if_pos (hall m (List.mem_cons_self m rest))]
    rw [hm]
    exact ih gs fun n hn => hall n (List.mem_cons_of_mem m hn)

theorem seededRows_all_mem (cts : List ContentType) (perms : List Permission)
    (config : List (String × List String)) :
    ∀ r ∈ seededRows config cts perms, r.1 ∈ config.map Prod.fst := by
  intro r hr
  unfold seededRows at hr
  obtain ⟨block, hblock, hrblock⟩ := List.mem_flatten.1 hr
  obtain ⟨ent, hent, hentblock⟩ := List.mem_map.1 hblock
  rw [← hentblock] at hrblock
  obtain ⟨pid, _, hpid⟩ := List.mem_map.1 hrblock
  rw [← hpid]
  exact List.mem_map.2 ⟨ent, hent, rfl⟩

/-- Row tables never pick up duplicates from a run. -/
theorem addPermRow_nodup (rows : List (String × Nat)) (g : String) (pid : Nat)
    (h : rows.Nodup) : (addPermRow rows g pid).Nodup := by
  unfold addPermRow
  split
  · exact h
  · rename_i hnot
    simpa [List.nodup_append] using ⟨h, hnot⟩

theorem addPermRows_nodup (pids : List Nat) :
    ∀ (rows : List (String × Nat)) (g : String), rows.Nodup →
      (addPermRows rows g pids).Nodup := by
  induction pids with
  | nil => intro rows g h; exact h
  | cons p rest ih =>
    intro rows g h
    rw [addPermRows_cons]
    exact ih _ g (addPermRow_nodup rows g p h)

theorem addGroupRow_nodup (gs : List String) (n : String) (h : gs.Nodup) :
    (addGroupRow gs n).Nodup := by
  unfold addGroupRow
  split
  · exact h
  · rename_i hnot
    simpa [List.nodup_append] using ⟨h, hnot⟩

theorem permGroupStep_nodup (cts : List ContentType) (perms : List Permission)
    (st : AuthState) (ent : String × List String) :
    (st.groups.Nodup → (permGroupStep cts perms st ent).groups.Nodup) ∧
    (st.group_permissions.Nodup → (permGroupStep cts perms st ent).group_permissions.Nodup) := by
  constructor
  · intro h
    exact addGroupRow_nodup st.groups ent.1 h
  · intro h
    exact addPermRows_nodup _ _ ent.1 (List.Nodup.filter _ h)

theorem create_groups_nodup (cts : List ContentType) (perms : List Permission) :
    ∀ (config : List (String × List String)) (st : AuthState),
    (st.groups.Nodup → (create_groups_and_permissions config cts perms st).groups.Nodup) ∧
    (st.group_permissions.Nodup →
      (create_groups_and_permissions config cts perms st).group_permissions.Nodup) := by
  intro config
  induction config with
  | nil => intro st; exact ⟨id, id⟩
  | cons ent rest ih =>
    intro st
    rw [create_groups_cons]
    constructor
    · intro h
      exact (ih _).1 ((permGroupStep_nodup cts perms st ent).1 h)
    · intro h
      exact (ih _).2 ((permGroupStep_nodup cts perms st ent).2 h)

/-- C4: re-running `create_groups_and_permissions` on the ITMS
configuration is a no-op — the group table and the group-permission
table come out exactly as after the first run — and a run never
introduces a duplicate group row or group-permission row. -/
theorem create_groups_and_permissions_idempotent (cts : List ContentType)
    (perms : List Permission) (st : AuthState) :
    create_groups_and_permissions PERMISSION_GROUPS cts perms
        (create_groups_and_permissions PERMISSION_GROUPS cts perms st) =
      create_groups_and_permissions PERMISSION_GROUPS cts perms st ∧
    (st.groups.Nodup →
      (create_groups_and_permissions PERMISSION_GROUPS cts perms st).groups.Nodup) ∧
    (st.group_permissions.Nodup →
      (create_groups_and_permissions PERMISSION_GROUPS cts perms st).group_permissions.Nodup) := by
  have hnodup : (PERMISSION_GROUPS.map Prod.fst).Nodup := by decide
  refine ⟨?_, (create_groups_nodup cts perms PERMISSION_GROUPS st).1,
    (create_groups_nodup cts perms PERMISSION_GROUPS st).2⟩
  rw [create_groups_characterization cts perms PERMISSION_GROUPS st hnodup,
    create_groups_characterization cts perms PERMISSION_GROUPS _ hnodup]
  have hgroups :
      addGroupRows (addGroupRows st.groups (PERMISSION_GROUPS.map Prod.fst))
        (PERMISSION_GROUPS.map Prod.fst) =
      addGroupRows st.groups (PERMISSION_GROUPS.map Prod.fst) :=
    addGroupRows_of_all_mem _ _ (fun n hn => mem_addGroupRows _ _ n hn)
  have hrows :
      clearMany (clearMany st.group_permissions (PERMISSION_GROUPS.map Prod.fst) ++
          seededRows PERMISSION_GROUPS cts perms) (PERMISSION_GROUPS.map Prod.fst) =
      clearMany st.group_permissions (PERMISSION_GROUPS.map Prod.fst) := by
    rw [clearMany_append, clearMany_idem,
      clearMany_of_all_mem _ _ (seededRows_all_mem cts perms PERMISSION_GROUPS),
      List.append_nil]
  simp only []
  rw [hgroups, hrows]

/-- Witness for C4: the Nodup components at a concrete empty state. -/
theorem create_groups_and_permissions_idempotent_witness :
    (create_groups_and_permissions PERMISSION_GROUPS [] [] ⟨[], []⟩).groups.Nodup ∧
    (create_groups_and_permissions PERMISSION_GROUPS [] [] ⟨[], []⟩).group_permissions.Nodup :=
  ⟨(create_groups_and_permissions_idempotent [] [] ⟨[], []⟩).2.1 (by decide),
   (create_groups_and_permissions_idempotent [] [] ⟨[], []⟩).2.2 (by decide)⟩

/-! #### C6: what one permission-code string resolves to -/

theorem splitOnceList_append (c : Char) :
    ∀ (l1 l2 : List Char), c ∉ l1 → splitOnceList c (l1 ++ c :: l2) = some (l1, l2) := by
  intro l1
  induction l1 with
  | nil =>
    intro l2 _
    simp only [List.nil_append]
    unfold splitOnceList
    rw [if_pos rfl]
  | cons x xs ih =>
    intro l2 h
    have hx : ¬ x = c := fun hh => h (hh ▸ List.mem_cons_self x xs)
    simp only [List.cons_append]
    unfold splitOnceList
    rw [if_neg hx, ih l2 (fun hh => h (List.mem_cons_of_mem x hh))]
    rfl

theorem splitOnce_of_toList (c : Char) (s a b : String)
    (hs : s.toList = a.toList ++ c :: b.toList) (h : c ∉ a.toList) :
    splitOnce c s = some (a, b) := by
  unfold splitOnce
  rw [hs, splitOnceList_append c _ _ h]
  rfl

/-- The amended expansion of a specific permission code, written from
the corrected claim: the permission with the given codename attached to
the view's chosen content type — for `auth` the model derived from the
codename, for any other app the app's first content type — when both
exist, and nothing otherwise. -/
def specificExpansion (cts : List ContentType) (perms : List Permission)
    (app codename : String) : List Nat :=
  match (if app = "auth" then
      cts.find? (fun ct => decide (ct.app_label = app ∧ ct.model = authModelName codename))
    else cts.find? (fun ct => decide (ct.app_label = app))) with
  | none => []
  | some ct =>
    match perms.find? (fun p => decide (p.content_type = ct.id ∧ p.codename = codename)) with
    | none => []
    | some p => [p.id]

theorem resolvePermCode_wildcard (cts : List ContentType) (perms : List Permission)
    (app action : String) (hdot : '.' ∉ app.toList) (hund : '_' ∉ action.toList) :
    resolvePermCode cts perms (app ++ "." ++ action ++ "_*") =
      (perms.filter (fun p => decide (ctAppLabelOf cts p.content_type = some app ∧
        strStartsWith p.codename action = true))).map Permission.id := by
  have hstar : containsChar (app ++ "." ++ action ++ "_*") '*' = true := by
    unfold containsChar
    apply List.elem_eq_true_of_mem
    show '*' ∈ ((app.toList ++ ['.']) ++ action.toList) ++ ['_', '*']
    simp
  have hsplit1 : splitOnce '.' (app ++ "." ++ action ++ "_*") =
      some (app, action ++ "_*") := by
    apply splitOnce_of_toList _ _ _ _ _ hdot
    show ((app.toList ++ ['.']) ++ action.toList) ++ ['_', '*'] =
      app.toList ++ '.' :: (action.toList ++ ['_', '*'])
    simp
  have hsplit2 : splitOnce '_' (action ++ "_*") = some (action, "*") := by
    apply splitOnce_of_toList _ _ _ _ _ hund
    show action.toList ++ ['_', '*'] = action.toList ++ '_' :: ['*']
    rfl
  unfold resolvePermCode
  rw [if_pos hstar, hsplit1]
  simp only []
  rw [hsplit2]

theorem resolvePermCode_specific (cts : List ContentType) (perms : List Permission)
    (app codename : String) (hdot : '.' ∉ app.toList)
    (hstar1 : '*' ∉ app.toList) (hstar2 : '*' ∉ codename.toList) :
    resolvePermCode cts perms (app ++ "." ++ codename) =
      specificExpansion cts perms app codename := by
  have hnostar : ¬ containsChar (app ++ "." ++ codename) '*' = true := by
    intro hx
    have hmem : '*' ∈ (app.toList ++ ['.']) ++ codename.toList :=
      List.mem_of_elem_eq_true hx
    rcases List.mem_append.1 hmem with h | h
    · rcases List.mem_append.1 h with h2 | h2
      · exact hstar1 h2
      · simp at h2
    · exact hstar2 h
  have hsplit : splitOnce '.' (app ++ "." ++ codename) = some (app, codename) := by
    apply splitOnce_of_toList _ _ _ _ _ hdot
    show (app.toList ++ ['.']) ++ codename.toList = app.toList ++ '.' :: codename.toList
    simp
  unfold resolvePermCode
  rw [if_neg hnostar, hsplit]
  rfl

theorem filter_gblock_self (g : String) (pids : List Nat) :
    (gblock g pids).filter (fun r => decide (r.1 = g)) = gblock g pids := by
  induction pids with
  | nil => rfl
  | cons p rest ih =>
    unfold gblock at ih ⊢
    simp only [List.map_cons]
    rw [List.filter_cons, if_pos (by simp)]
    rw [ih]

theorem filter_gblock_ne (g g2 : String) (pids : List Nat) (h : ¬ g = g2) :
    (gblock g pids).filter (fun r => decide (r.1 = g2)) = [] := by
  apply List.filter_eq_nil_iff.mpr
  intro r hr
  obtain ⟨r1, r2⟩ := r
  have := mem_gblock.1 hr
  simp [this.1, h]

theorem seededRows_filter (cts : List ContentType) (perms : List Permission) :
    ∀ (config : List (String × List String)), (config.map Prod.fst).Nodup →
    ∀ ent ∈ config,
      (seededRows config cts perms).filter (fun r => decide (r.1 = ent.1)) =
        gblock ent.1 (dedupAdd [] ((ent.2.map (resolvePermCode cts perms)).flatten)) := by
  intro config
  induction config with
  | nil => intro _ ent hent; cases hent
  | cons head rest ih =>
    intro hnodup ent hent
    have hnotin : head.1 ∉ rest.map Prod.fst := by
      simp only [List.map_cons, List.nodup_cons] at hnodup
      exact hnodup.1
    have hnodup2 : (rest.map Prod.fst).Nodup := by
      simp only [List.map_cons, List.nodup_cons] at hnodup
      exact hnodup.2
    have hrw : seededRows (head :: rest) cts perms =
        gblock head.1 (dedupAdd [] ((head.2.map (resolvePermCode cts perms)).flatten)) ++
          seededRows rest cts perms := by
      unfold seededRows
      simp only [List.map_cons, List.flatten_cons]
    rw [hrw, List.filter_append]
    rcases List.mem_cons.1 hent with rfl | hent2
    · rw [filter_gblock_self]
      have hrest : (seededRows rest cts perms).filter (fun r => decide (r.1 = ent.1)) = [] := by
        apply List.filter_eq_nil_iff.mpr
        intro r hr
        have := seededRows_all_mem cts perms rest r hr
        intro hx
        apply hnotin
        rw [← of_decide_eq_true hx]
        exact this
      rw [hrest, List.append_nil]
    · have hne : ¬ head.1 = ent.1 := by
        intro hh
        apply hnotin
        rw [hh]
        exact List.mem_map.2 ⟨ent, hent2, rfl⟩
      rw [filter_gblock_ne _ _ _ hne, List.nil_append]
      exact ih hnodup2 ent hent2

/-- C6 (amended): after a seeding run, each configured group's
permission rows are exactly the ordered deduplication of what its
listed codes resolve to; a wildcard code `app.action_*` resolves to all
permissions of app `app` whose codename starts with `action`; a
specific code `app.codename` resolves to the permission with that
codename under the view's chosen content type — for `auth` the model
derived from the codename, for other apps the app's FIRST content
type — when present, and to nothing otherwise. -/
theorem create_groups_permission_expansion (cts : List ContentType)
    (perms : List Permission) :
    (∀ (st : AuthState), ∀ ent ∈ PERMISSION_GROUPS,
      ((create_groups_and_permissions PERMISSION_GROUPS cts perms st).group_permissions.filter
          (fun r => decide (r.1 = ent.1))) =
        gblock ent.1 (dedupAdd [] ((ent.2.map (resolvePermCode cts perms)).flatten))) ∧
    (∀ app action : String, '.' ∉ app.toList → '_' ∉ action.toList →
      resolvePermCode cts perms (app ++ "." ++ action ++ "_*") =
        (perms.filter (fun p => decide (ctAppLabelOf cts p.content_type = some app ∧
          strStartsWith p.codename action = true))).map Permission.id) ∧
    (∀ app codename : String, '.' ∉ app.toList → '*' ∉ app.toList →
      '*' ∉ codename.toList →
      resolvePermCode cts perms (app ++ "." ++ codename) =
        specificExpansion cts perms app codename) := by
  have hnodup : (PERMISSION_GROUPS.map Prod.fst).Nodup := by decide
  refine ⟨?_, resolvePermCode_wildcard cts perms, resolvePermCode_specific cts perms⟩
  intro st ent hent
  rw [create_groups_characterization cts perms PERMISSION_GROUPS st hnodup]
  simp only []
  rw [List.filter_append]
  have hclear : (clearMany st.group_permissions (PERMISSION_GROUPS.map Prod.fst)).filter
      (fun r => decide (r.1 = ent.1)) = [] := by
    apply List.filter_eq_nil_iff.mpr
    intro r hr hx
    have hnot := (List.mem_filter.1 hr).2
    apply of_decide_eq_true hnot
    rw [of_decide_eq_true hx]
    exact List.mem_map.2 ⟨ent, hent, rfl⟩
  rw [hclear, List.nil_append]
  exact seededRows_filter cts perms PERMISSION_GROUPS hnodup ent hent

/-- Witness for C6 at a concrete configuration entry and tables. -/
theorem create_groups_permission_expansion_witness :
    ((create_groups_and_permissions PERMISSION_GROUPS
        [⟨1, "itms_app", "helpdeskticket"⟩] [⟨7, 1, "view_helpdeskticket"⟩]
        ⟨[], []⟩).group_permissions.filter
      (fun r => decide (r.1 = "End_Users"))) =
      gblock "End_Users" (dedupAdd []
        ((["itms_app.add_helpdeskticket", "itms_app.view_helpdeskticket",
           "itms_app.add_reservation", "itms_app.view_reservation",
           "itms_app.view_knowledgebase", "auth.view_user"].map
          (resolvePermCode [⟨1, "itms_app", "helpdeskticket"⟩]
            [⟨7, 1, "view_helpdeskticket"⟩])).flatten)) ∧
    resolvePermCode [⟨1, "itms_app", "helpdeskticket"⟩] [⟨7, 1, "view_helpdeskticket"⟩]
        ("itms_app" ++ "." ++ "view" ++ "_*") =
      (([⟨7, 1, "view_helpdeskticket"⟩] : List Permission).filter (fun p =>
        decide (ctAppLabelOf [⟨1, "itms_app", "helpdeskticket"⟩] p.content_type =
            some "itms_app" ∧
          strStartsWith p.codename "view" = true))).map Permission.id := by
  constructor
  · exact (create_groups_permission_expansion
      [⟨1, "itms_app", "helpdeskticket"⟩] [⟨7, 1, "view_helpdeskticket"⟩]).1 ⟨[], []⟩
      ("End_Users",
        ["itms_app.add_helpdeskticket", "itms_app.view_helpdeskticket",
         "itms_app.add_reservation", "itms_app.view_reservation",
         "itms_app.view_knowledgebase", "auth.view_user"])
      (by decide)
  · exact (create_groups_permission_expansion
      [⟨1, "itms_app", "helpdeskticket"⟩] [⟨7, 1, "view_helpdeskticket"⟩]).2.1
      "itms_app" "view" (by decide) (by decide)

def c6cts : List ContentType := [⟨1, "itms_app", "asset"⟩, ⟨2, "itms_app", "category"⟩]

def c6perms : List Permission := [⟨10, 2, "view_category"⟩]

/-- C6 (counterexample): the permission `view_category` exists in app
`itms_app`, but because its content type is not the app's first content
type, the specific branch looks it up under the wrong content type and
contributes nothing — the claim that a specific code contributes the
permission with that codename in that app whenever it exists is false
on the code. -/
theorem specific_code_wrong_content_type :
    resolvePermCode c6cts c6perms "itms_app.view_category" = [] ∧
    c6perms.filter (fun p => decide (ctAppLabelOf c6cts p.content_type = some "itms_app" ∧
        p.codename = "view_category")) = [⟨10, 2, "view_category"⟩] ∧
    (create_groups_and_permissions [("Helpdesk_Staff", ["itms_app.view_category"])]
        c6cts c6perms ⟨[], []⟩).group_permissions = [] := by
  refine ⟨by decide, by decide, by decide⟩

end ITMS
